import Mathlib

/-!
Abattler: a verification development of the combat engine.

Shallow embedding of `Abattler_linux.cpp`.

Modelling conventions
* C++ `float` values are modelled as exact rationals (`ℚ`); the literals
  `1.2f`, `0.3f`, ... are the rationals they denote in decimal. The loop of
  `Hero::addXP`, where rounding decides whether the loop runs and whether it ends, is
  embedded a second time with every `float` operation rounded to binary32.
* C++ `int` values are modelled as `Int` (no overflow arises in the claims).
* `rand()` is modelled by an explicit generator state `RandState`: an infinite
  sequence of non-negative draws together with the position of the next draw.
  Every call of `rand()` returns the draw at that position and advances it.
* `std::map<string, StatusEffect>` is modelled as a list of effects kept in
  strictly increasing order of `name` (the iteration order of `std::map`).
* The outcome of `getAnswerWithTimeout` (console input under a deadline) is an
  external input: `none` when it returned `false` (timeout or unparsable
  text), `some v` when it returned `true` with `answer = v`.
* Console output (`cout`) is presentation and is not modelled; returned strings are.
-/

namespace Abattler

/-! ## Data model -/

/-- Source: `struct StatusEffect`. -/
structure StatusEffect where
  name : String
  duration : Int
  damageMultiplier : ℚ
  defenseMultiplier : ℚ
deriving DecidableEq

/-- Source: `struct Item`. -/
structure Item where
  name : String
  description : String
  duration : Int
  healAmount : ℚ
  attackBuff : ℚ
  defenseBuff : ℚ
  quantity : Int
deriving DecidableEq

/-- Source: `enum class MonsterType`. -/
inductive MonsterType where
  | NORMAL
  | FIRE
  | ICE
  | POISON
  | UNDEAD
deriving DecidableEq

/-- Source: `struct MonsterTemplate`. -/
structure MonsterTemplate where
  name : String
  type : MonsterType
  baseHP : ℚ
  baseAttack : ℚ
  specialMoves : List (String × ℚ)

/-- Source: the global `monsterTemplates`. -/
def monsterTemplates : List MonsterTemplate :=
  [ ⟨"Goblin", .NORMAL, 20, 4, [("Sneaky Strike", 6/5), ("Rabid Attack", 7/5)]⟩,
    ⟨"Fire Drake", .FIRE, 25, 5, [("Flame Breath", 3/2), ("Heat Wave", 13/10)]⟩,
    ⟨"Frost Giant", .ICE, 30, 3, [("Ice Shard", 7/5), ("Freeze", 6/5)]⟩,
    ⟨"Poison Spider", .POISON, 15, 6, [("Venom Strike", 13/10), ("Web Trap", 11/10)]⟩,
    ⟨"Skeleton", .UNDEAD, 18, 4, [("Bone Throw", 6/5), ("Death Touch", 7/5)]⟩,
    ⟨"Dragon", .FIRE, 40, 7, [("Inferno", 9/5), ("Wing Slash", 3/2)]⟩,
    ⟨"Ice Witch", .ICE, 22, 5, [("Blizzard", 8/5), ("Frost Nova", 7/5)]⟩,
    ⟨"Toxic Slime", .POISON, 25, 3, [("Acid Splash", 13/10), ("Dissolve", 3/2)]⟩,
    ⟨"Lich", .UNDEAD, 35, 6, [("Soul Drain", 17/10), ("Curse", 7/5)]⟩,
    ⟨"Babayaga", .NORMAL, 50, 10, [("Doggono", 3), ("Mad gun", 5/2)]⟩ ]

/-- Source: the global `itemTemplates`. -/
def itemTemplates : List Item :=
  [ ⟨"Health Potion", "Instantly restores 15 HP", 0, 15, 0, 0, 1⟩,
    ⟨"Healing Salve", "Heals 5 HP per turn for 3 turns", 3, 5, 0, 0, 1⟩,
    ⟨"Warrior\x27s Elixir", "Increases attack by 50% for 3 turns", 3, 0, 3/2, 1, 1⟩,
    ⟨"Stone Skin Potion", "Increases defense by 50% for 3 turns", 3, 0, 1, 3/2, 1⟩,
    ⟨"Battle Flask", "Increases both attack and defense by 25% for 2 turns", 2, 0, 5/4, 5/4, 1⟩ ]

/-! ## The random generator -/

/-- State of the process-wide generator behind `rand()`. -/
structure RandState where
  draws : Nat → Nat
  next : Nat

/-- One call of `rand()`: the value returned and the advanced generator. -/
def rand (g : RandState) : Nat × RandState :=
  (g.draws g.next, { g with next := g.next + 1 })

/-! ## Math challenge -/

/-- Source: `generateMathProblem` (three draws: both operands, then the operation). -/
def generateMathProblem (g : RandState) : (String × Int) × RandState :=
  let (r1, g) := rand g
  let num1 : Int := r1 % 10 + 1
  let (r2, g) := rand g
  let num2 : Int := r2 % 10 + 1
  let (r3, g) := rand g
  let operation := r3 % 3
  match operation with
  | 0 => ((toString num1 ++ " + " ++ toString num2, num1 + num2), g)
  | 1 =>
    let (num1, num2) := if num1 < num2 then (num2, num1) else (num1, num2)
    ((toString num1 ++ " - " ++ toString num2, num1 - num2), g)
  | 2 => ((toString num1 ++ " × " ++ toString num2, num1 * num2), g)
  | _ => (("", 0), g)

/-! ## Status-effect map -/

/-- Assignment `m[e.name] = e` on the ordered map. -/
def effectInsert (e : StatusEffect) : List StatusEffect → List StatusEffect
  | [] => [e]
  | x :: xs =>
    if e.name < x.name then e :: x :: xs
    else if e.name = x.name then e :: xs
    else x :: effectInsert e xs

/-- Lookup of a key in the ordered map. -/
def effectFind (n : String) (m : List StatusEffect) : Option StatusEffect :=
  m.find? (fun e => decide (e.name = n))

/-- The representation invariant of `std::map`: keys strictly increasing. -/
def EffectMapWF (m : List StatusEffect) : Prop :=
  m.Pairwise (fun a b => a.name < b.name)

/-! ## Creature -/

/-- Source: `class Creature` (data members). -/
structure Creature where
  name : String
  pv : ℚ
  pa : ℚ
  niveau : Int
  type : MonsterType
  specialMoves : List (String × ℚ)
  activeEffects : List StatusEffect
  comboPoints : Int
  pv_max : ℚ

/-- Source: constructor `Creature::Creature(templ, level)`. -/
def Creature.create (templ : MonsterTemplate) (level : Int) : Creature :=
  let pv := templ.baseHP * (1 + (level * (1/2 : ℚ)))
  { name := templ.name
    type := templ.type
    specialMoves := templ.specialMoves
    niveau := level
    pv := pv
    pa := templ.baseAttack * (1 + (level * (3/10 : ℚ)))
    pv_max := pv
    comboPoints := 0
    activeEffects := [] }

/-- The type-effectiveness part of `Creature::calculateDamage`: the five `if`s in order. -/
def typeMultiplier (type targetType : MonsterType) : ℚ :=
  let multiplier : ℚ := 1
  let multiplier := if type = .FIRE ∧ targetType = .ICE then 3/2 else multiplier
  let multiplier := if type = .ICE ∧ targetType = .FIRE then 1/2 else multiplier
  let multiplier := if type = .POISON ∧ targetType = .UNDEAD then 1/2 else multiplier
  let multiplier := if type = .FIRE ∧ targetType = .UNDEAD then 5/4 else multiplier
  let multiplier := if type = .ICE ∧ targetType = .POISON then 5/4 else multiplier
  multiplier

/-- Source: `Creature::calculateDamage`. -/
def Creature.calculateDamage (c : Creature) (baseDamage : ℚ) (targetType : MonsterType) : ℚ :=
  let multiplier := typeMultiplier c.type targetType
  let multiplier := c.activeEffects.foldl (fun m effect => m * effect.damageMultiplier) multiplier
  baseDamage * multiplier

/-- Source: `Creature::addStatusEffect`. -/
def Creature.addStatusEffect (c : Creature) (name : String) (duration : Int)
    (dmgMult defMult : ℚ) : Creature :=
  { c with activeEffects := effectInsert ⟨name, duration, dmgMult, defMult⟩ c.activeEffects }

/-- Source: `Creature::updateStatusEffects`: decrement every duration, then erase the
keys whose duration is `<= 0`. -/
def updateEffects (m : List StatusEffect) : List StatusEffect :=
  let m := m.map (fun effect => { effect with duration := effect.duration - 1 })
  let expiredEffects := (m.filter (fun effect => decide (effect.duration ≤ 0))).map (·.name)
  expiredEffects.foldl (fun m name => m.filter (fun e => !decide (e.name = name))) m

/-- Source: `Creature::updateStatusEffects`. -/
def Creature.updateStatusEffects (c : Creature) : Creature :=
  { c with activeEffects := updateEffects c.activeEffects }

/-- Source: `Creature::subitDegat` (the monster variant of receiving damage). -/
def Creature.subitDegat (c : Creature) (degat : ℚ) (g : RandState) : Creature × RandState :=
  let finalDamage := c.activeEffects.foldl (fun d effect => d * effect.defenseMultiplier) degat
  let (r, g) := rand g
  let esquive := r % 4
  if esquive > 1 then ({ c with pv := c.pv - finalDamage }, g) else (c, g)

/-- Source: `Creature::estVivant`. -/
def Creature.estVivant (c : Creature) : Bool := decide (c.pv > 0)

/-- Source: `Creature::resetCombo`. -/
def Creature.resetCombo (c : Creature) : Creature := { c with comboPoints := 0 }

/-- The operations of a `Creature&` target that are reached through the reference:
`getType`, `addStatusEffect` and the virtual `subitDegat`. -/
structure TargetOps (τ : Type) where
  getType : τ → MonsterType
  addStatusEffect : τ → String → Int → ℚ → ℚ → τ
  subitDegat : τ → ℚ → Option Int → RandState → τ × RandState

/-- A plain `Creature` (a monster) as target: `Creature::subitDegat` reads no answer. -/
def creatureTarget : TargetOps Creature where
  getType := fun c => c.type
  addStatusEffect := Creature.addStatusEffect
  subitDegat := fun c degat _ g => c.subitDegat degat g

/-- Source: `Creature::attaque`, run on a plain `Creature`
(`calculateDamage` resolves to `Creature::calculateDamage`). -/
def Creature.attaque {τ : Type} (T : TargetOps τ) (c : Creature) (target : τ)
    (g : RandState) : ℚ × Creature × RandState :=
  let (r, g) := rand g
  let baseDamage := c.pa * (1 + ((r % 10 : Nat) : ℚ) / 10)
  let finalDamage := c.calculateDamage baseDamage (T.getType target)
  (finalDamage, { c with comboPoints := c.comboPoints + 1 }, g)

/-- The status effect attached by `performSpecialMove`, by attacker type (the `switch`). -/
def specialMoveEffect {τ : Type} (T : TargetOps τ) (type : MonsterType) (target : τ) : τ :=
  match type with
  | .FIRE => T.addStatusEffect target "Burn" 3 (9/10) 1
  | .ICE => T.addStatusEffect target "Frozen" 2 1 (4/5)
  | .POISON => T.addStatusEffect target "Poisoned" 4 (4/5) (9/10)
  | .UNDEAD => T.addStatusEffect target "Cursed" 3 (7/10) (7/10)
  | _ => target

/-- Source: `Creature::performSpecialMove`, run on a plain `Creature`.
Returns the move name, the attacker, the target and the generator. -/
def Creature.performSpecialMove {τ : Type} (T : TargetOps τ) (c : Creature) (target : τ)
    (answer : Option Int) (g : RandState) : String × Creature × τ × RandState :=
  if c.specialMoves.isEmpty then ("No special moves available!", c, target, g)
  else
    let (r, g) := rand g
    let moveIndex := r % c.specialMoves.length
    let (moveName, multiplier) := c.specialMoves.getD moveIndex ("", 0)
    let damage := c.pa * multiplier
    let target := specialMoveEffect T c.type target
    let (target, g) := T.subitDegat target (c.calculateDamage damage (T.getType target)) answer g
    (moveName, c, target, g)

/-! ## Hero -/

/-- Source: `class Hero : public Creature` (data members). -/
structure Hero extends Creature where
  isBlocking : Bool
  xp : ℚ
  successful_blocks : Int
  heroSpecialMoves : List (String × ℚ)
  inventory : List Item
  activeItems : List Item

/-- The move list assigned to `heroSpecialMoves` by the constructor. -/
def heroMoveList : List (String × ℚ) :=
  [("Triple Strike", 9/5), ("Whirlwind Slash", 2), ("Power Attack", 11/5), ("Ultimate Combo", 5/2)]

/-- Source: constructor `Hero::Hero(name)`. -/
def Hero.create (name : String) : Hero :=
  { Creature.create ⟨"Hero", .NORMAL, 30, 5, []⟩ 1 with
    name := name
    isBlocking := false
    xp := 0
    successful_blocks := 0
    heroSpecialMoves := heroMoveList
    inventory := []
    activeItems := [] }

/-- Source: `Hero::setBlocking`. -/
def Hero.setBlocking (h : Hero) (blocking : Bool) : Hero := { h with isBlocking := blocking }

/-- Source: `Hero::addItem`, the loop over the inventory followed by `push_back`. -/
def addItemLoop (item : Item) : List Item → List Item
  | [] => [item]
  | invItem :: rest =>
    if invItem.name = item.name then
      { invItem with quantity := invItem.quantity + item.quantity } :: rest
    else invItem :: addItemLoop item rest

/-- Source: `Hero::addItem`. -/
def Hero.addItem (h : Hero) (item : Item) : Hero :=
  { h with inventory := addItemLoop item h.inventory }

/-- Source: `Hero::useItem`. -/
def Hero.useItem (h : Hero) (index : Int) : Hero :=
  if 0 ≤ index ∧ index < (h.inventory.length : Int) then
    match h.inventory[index.toNat]? with
    | none => h
    | some item =>
      if item.quantity ≤ 0 then h
      else
        let h : Hero :=
          if item.healAmount > 0 ∧ item.duration = 0 then
            { h with pv := min (h.pv + item.healAmount) h.pv_max }
          else h
        let h : Hero :=
          if item.duration > 0 then { h with activeItems := h.activeItems ++ [item] } else h
        { h with inventory := h.inventory.set index.toNat { item with quantity := item.quantity - 1 } }
  else h

/-- Healing done by the first loop of `Hero::updateActiveItems`, in list order. -/
def healOverTime (pv_max : ℚ) (items : List Item) (pv : ℚ) : ℚ :=
  items.foldl (fun pv item => if item.healAmount > 0 then min (pv + item.healAmount) pv_max else pv) pv

/-- The second loop of `Hero::updateActiveItems`: erase the expired indexes, last one first. -/
def eraseExpired (items : List Item) : List Item :=
  let expiredIndexes := (List.range items.length).filter (fun i =>
    match items[i]? with
    | some item => decide (item.duration ≤ 0)
    | none => false)
  expiredIndexes.reverse.foldl (fun l i => l.eraseIdx i) items

/-- Source: `Hero::updateActiveItems`. -/
def Hero.updateActiveItems (h : Hero) : Hero :=
  { h with
    pv := healOverTime h.pv_max h.activeItems h.pv
    activeItems := eraseExpired (h.activeItems.map (fun item => { item with duration := item.duration - 1 })) }

/-- Source: `Hero::calculateDamage` (override). -/
def Hero.calculateDamage (h : Hero) (baseDamage : ℚ) (targetType : MonsterType) : ℚ :=
  let multiplier := h.toCreature.calculateDamage baseDamage targetType
  h.activeItems.foldl (fun m item => m * item.attackBuff) multiplier

/-- The item-defense loop shared by the three branches of `Hero::subitDegat`. -/
def itemDefense (items : List Item) (damage : ℚ) : ℚ :=
  items.foldl (fun d item => d * (2 - item.defenseBuff)) damage

/-- Source: `Hero::subitDegat` (override). -/
def Hero.subitDegat (h : Hero) (degat : ℚ) (answer : Option Int) (g : RandState) :
    Hero × RandState :=
  if h.isBlocking then
    let ((_, correct_answer), g) := generateMathProblem g
    match answer with
    | some user_answer =>
      if user_answer = correct_answer then
        let reducedDamage := itemDefense h.activeItems (degat * (3/10))
        ({ h with successful_blocks := h.successful_blocks + 1, pv := h.pv - reducedDamage }, g)
      else
        let finalDamage := itemDefense h.activeItems degat
        ({ h with pv := h.pv - finalDamage }, g)
    | none =>
      let finalDamage := itemDefense h.activeItems degat
      ({ h with pv := h.pv - finalDamage }, g)
  else
    let finalDamage := itemDefense h.activeItems degat
    ({ h with pv := h.pv - finalDamage }, g)

/-- A `Hero` as target: `subitDegat` resolves to `Hero::subitDegat`. -/
def heroTarget : TargetOps Hero where
  getType := fun h => h.type
  addStatusEffect := fun h name duration dmgMult defMult =>
    { h with activeEffects := effectInsert ⟨name, duration, dmgMult, defMult⟩ h.activeEffects }
  subitDegat := Hero.subitDegat

/-- Source: `Creature::attaque`, run on a `Hero`
(`calculateDamage` resolves to `Hero::calculateDamage`). -/
def Hero.attaque {τ : Type} (T : TargetOps τ) (h : Hero) (target : τ)
    (g : RandState) : ℚ × Hero × RandState :=
  let (r, g) := rand g
  let baseDamage := h.pa * (1 + ((r % 10 : Nat) : ℚ) / 10)
  let finalDamage := h.calculateDamage baseDamage (T.getType target)
  (finalDamage, { h with comboPoints := h.comboPoints + 1 }, g)

/-- Source: `Creature::updateStatusEffects`, run on a `Hero`. -/
def Hero.updateStatusEffects (h : Hero) : Hero :=
  { h with activeEffects := updateEffects h.activeEffects }

/-- Source: `Creature::resetCombo`, run on a `Hero` (not overridden). -/
def Hero.resetCombo (h : Hero) : Hero := { h with comboPoints := 0 }

/-- The text returned by `performHeroSpecialMove` when `comboPoints < 3`. -/
def notEnoughCombo (comboPoints : Int) : String :=
  "Not enough combo points! (Need 3, have " ++ toString comboPoints ++ ")"

/-- Source: `Hero::performHeroSpecialMove`.
Returns the text, the hero, the target and the generator. -/
def Hero.performHeroSpecialMove {τ : Type} (T : TargetOps τ) (h : Hero) (target : τ)
    (answer : Option Int) (g : RandState) : String × Hero × τ × RandState :=
  if h.comboPoints < 3 then (notEnoughCombo h.comboPoints, h, target, g)
  else
    let moveIndex : Int := min (h.comboPoints - 3) ((h.heroSpecialMoves.length : Int) - 1)
    let (moveName, multiplier) := h.heroSpecialMoves.getD moveIndex.toNat ("", 0)
    let damage := h.pa * multiplier * (1 + (h.successful_blocks : ℚ) / 10)
    let (target, g) := T.subitDegat target (h.calculateDamage damage (T.getType target)) answer g
    (moveName, h.resetCombo, target, g)

/-- One iteration of the `while (xp >= 100.0)` loop of `Hero::addXP`. -/
def levelUp (h : Hero) : Hero :=
  { h with
    niveau := h.niveau + 1
    pv_max := h.pv_max + 10
    pa := h.pa + 3
    xp := h.xp - 100
    pv := h.pv_max + 10 }

/-- The `while (xp >= 100.0)` loop of `Hero::addXP`. -/
def addXPLoop (h : Hero) : Hero :=
  if 100 ≤ h.xp then addXPLoop (levelUp h) else h
termination_by (Int.floor (h.xp / 100)).toNat
decreasing_by
  have h1 : (levelUp h).xp / 100 = h.xp / 100 - 1 := by
    simp only [levelUp]; ring
  rw [h1, Int.floor_sub_one]
  have h2 : (1 : Int) ≤ Int.floor (h.xp / 100) := by
    rw [Int.le_floor]; push_cast; linarith
  omega

/-- Source: `Hero::addXP`. -/
def Hero.addXP (h : Hero) (gained_xp : ℚ) : Hero :=
  addXPLoop { h with xp := h.xp + gained_xp }

/-! ### `Hero::addXP` in binary32

`addXPLoop` above reads the loop in exact arithmetic. The field `xp` is a C++ `float`, and in
this loop rounding decides the control flow, so the loop is also embedded with every
`float` operation rounded to binary32 (round to nearest, ties to even). The exponent
range (overflow from `2^128` up, subnormals below `2^-126`) is not modelled; no value used
below comes near it. -/

/-- Exponent of the binade of a non-zero `x`: the `e` with `2^e <= |x| < 2^(e+1)`. -/
def binade (x : ℚ) : Int := Int.log 2 |x|

/-- Rounding to the nearest integer, ties to the even one. -/
def roundHalfEven (q : ℚ) : Int :=
  let f := Int.floor q
  let r := q - f
  if r < 1/2 then f else if 1/2 < r then f + 1 else if f % 2 = 0 then f else f + 1

/-- Rounding of a real result to binary32 (24-bit significand, round to nearest even). -/
def round32 (x : ℚ) : ℚ :=
  if x = 0 then 0 else (roundHalfEven (x / 2 ^ (binade x - 23)) : ℚ) * 2 ^ (binade x - 23)

/-- One iteration of the `while (xp >= 100.0)` loop of `Hero::addXP`, each `float`
assignment rounded: `pv_max += 10`, `pa += 3`, `xp -= 100.0`, `pv = pv_max`. -/
def levelUp32 (h : Hero) : Hero :=
  { h with
    niveau := h.niveau + 1
    pv_max := round32 (h.pv_max + 10)
    pa := round32 (h.pa + 3)
    xp := round32 (h.xp - 100)
    pv := round32 (h.pv_max + 10) }

/-- The `while (xp >= 100.0)` loop of `Hero::addXP` in binary32. The rounded loop need not
end, so it runs on fuel: one unit per evaluation of the loop condition, `none` when the
fuel runs out before the condition is false. -/
def addXPLoop32 : Nat → Hero → Option Hero
  | 0, _ => none
  | fuel + 1, h => if 100 ≤ h.xp then addXPLoop32 fuel (levelUp32 h) else some h

/-- Source: `Hero::addXP` in binary32: `xp += gained_xp` rounded, then the loop. -/
def Hero.addXP32 (h : Hero) (fuel : Nat) (gained_xp : ℚ) : Option Hero :=
  addXPLoop32 fuel { h with xp := round32 (h.xp + gained_xp) }

/-- Source: `Item::getDescription`. -/
def Item.getDescription (item : Item) : String :=
  let desc := item.name ++ ": " ++ item.description
  if item.quantity > 0 then desc ++ " (x" ++ toString item.quantity ++ ")" else desc

/-- Source: `Hero::getInventoryList`. -/
def Hero.getInventoryList (h : Hero) : List String :=
  (h.inventory.filter (fun item => decide (item.quantity > 0))).map Item.getDescription

/-! ## The battle loop of `main` -/

/-- The variables of the battle loop: both combatants, the two loop flags and the generator. -/
structure Battle where
  player : Hero
  monster : Creature
  playerTurn : Bool
  battleContinues : Bool
  rng : RandState

/-- What the console supplies during one iteration: the menu choice, the item sub-menu
choice and the outcome of the block challenge (each read only if the iteration asks). -/
structure TurnInput where
  choice : Int
  itemChoice : Int
  answer : Option Int

/-- Source: the condition of the battle loop,
`battleContinues && monster.estVivant() && player.estVivant()`. -/
def loopCond (s : Battle) : Bool :=
  s.battleContinues && s.monster.estVivant && s.player.toCreature.estVivant

/-- Source: the `switch(choice)` of the player turn. -/
def playerAction (s : Battle) (inp : TurnInput) : Battle :=
  if inp.choice = 1 then
    let (damage, player, g) := s.player.attaque creatureTarget s.monster s.rng
    let (monster, g) := s.monster.subitDegat damage g
    { s with player := player.setBlocking false, monster := monster, rng := g }
  else if inp.choice = 2 then
    let (_, player, monster, g) :=
      s.player.performHeroSpecialMove creatureTarget s.monster inp.answer s.rng
    { s with player := player.setBlocking false, monster := monster, rng := g }
  else if inp.choice = 3 then
    { s with player := s.player.setBlocking true }
  else if inp.choice = 4 then
    let inventory := s.player.getInventoryList
    let player :=
      if inventory.isEmpty then s.player
      else if inp.itemChoice > 0 ∧ inp.itemChoice ≤ (inventory.length : Int) then
        s.player.useItem (inp.itemChoice - 1)
      else s.player
    { s with player := player.setBlocking false }
  else if inp.choice = 5 then
    let (r, g) := rand s.rng
    if r % 4 = 0 then
      { s with battleContinues := false, player := s.player.setBlocking false, rng := g }
    else
      let (damage, monster, g) := s.monster.attaque heroTarget s.player g
      let (player, g) := s.player.subitDegat (damage * (13/10)) inp.answer g
      { s with player := player.setBlocking false, monster := monster, rng := g }
  else
    { s with player := s.player.setBlocking false }

/-- Source: the first part of the monster turn: a special move on a draw divisible
by 4, otherwise a basic attack whose damage the hero receives. -/
def monsterAction (s : Battle) (inp : TurnInput) : Battle :=
  let (r, g) := rand s.rng
  if r % 4 = 0 then
    let (_, monster, player, g) := s.monster.performSpecialMove heroTarget s.player inp.answer g
    { s with player := player, monster := monster, rng := g }
  else
    let (damage, monster, g) := s.monster.attaque heroTarget s.player g
    let (player, g) := s.player.subitDegat damage inp.answer g
    { s with player := player, monster := monster, rng := g }

/-- Source: the end of the monster turn: `player.updateStatusEffects()`,
`player.updateActiveItems()`, `monster.updateStatusEffects()`. -/
def endOfTurnUpdates (s : Battle) : Battle :=
  { s with
    player := s.player.updateStatusEffects.updateActiveItems
    monster := s.monster.updateStatusEffects }

/-- Source: the monster turn (the `else` branch of `if (playerTurn)`). -/
def monsterTurn (s : Battle) (inp : TurnInput) : Battle :=
  endOfTurnUpdates (monsterAction s inp)

/-- Source: the body of the battle loop, ending with `playerTurn = !playerTurn`. -/
def loopBody (s : Battle) (inp : TurnInput) : Battle :=
  let s := if s.playerTurn then playerAction s inp else monsterTurn s inp
  { s with playerTurn := !s.playerTurn }

/-! ## Encounter generation -/

/-- Source: `monsterLevel = 1 + (monstersDefeated / 3)` (C++ integer division). -/
def monsterLevel (monstersDefeated : Int) : Int := 1 + Int.tdiv monstersDefeated 3

/-- Source: the encounter code at the head of the outer loop of `main`: draw the template
index, compute the level, construct the monster. -/
def generateEncounter (monstersDefeated : Int) (g : RandState) : Creature × RandState :=
  let (r, g) := rand g
  let monsterIndex := r % monsterTemplates.length
  (Creature.create (monsterTemplates.getD monsterIndex ⟨"", .NORMAL, 0, 0, []⟩)
    (monsterLevel monstersDefeated), g)

/-! ## Concrete states used in the examples -/

/-- A generator whose every draw is `v`. -/
def constRand (v : Nat) : RandState := ⟨fun _ => v, 0⟩

/-- The level-1 Goblin built by the encounter code. -/
def goblin1 : Creature :=
  Creature.create ⟨"Goblin", .NORMAL, 20, 4, [("Sneaky Strike", 6/5), ("Rabid Attack", 7/5)]⟩ 1

/-- A Goblin left with 5 HP. -/
def woundedGoblin : Creature := { goblin1 with pv := 5 }

/-- The hero as constructed by `Hero::Hero`. -/
def freshHero : Hero := Hero.create "Hero"

/-- A hero left with 3 HP. -/
def woundedHero : Hero := { freshHero with pv := 3 }

/-- The starter Healing Salve handed out by `main`. -/
def starterSalve : Item := ⟨"Healing Salve", "Heals 6 HP per turn for 4 turns", 4, 6, 0, 0, 8⟩

/-- A hero with 8 HP who has a Healing Salve ticking. -/
def salvedHero : Hero := { freshHero with pv := 8, activeItems := [starterSalve] }

/-- The battle state at the start of a monster turn: a hero at 8 HP with a Healing Salve
ticking faces the fresh Goblin; every draw is 10 (no special move, attack roll 0). -/
def salveTurn : Battle := ⟨salvedHero, goblin1, false, true, constRand 10⟩

/-- An input that is not consulted in `salveTurn` (the hero is not blocking). -/
def noInput : TurnInput := ⟨0, 0, none⟩

/-- A hero whose only slot (Health Potion) is used up. -/
def emptySlotHero : Hero :=
  { freshHero with
    pv := 10
    inventory := [⟨"Health Potion", "Instantly restores 15 HP", 0, 15, 0, 0, 0⟩] }

/-- The fresh hero holding `c` combo points. -/
def comboHero (c : Int) : Hero := { freshHero with comboPoints := c }

/-- The starter Health Potion handed out by `main`. -/
def starterPotion : Item := ⟨"Health Potion", "Instantly restores 15 HP", 0, 15, 0, 0, 8⟩

/-- A hero at 20 HP holding the two starter items of `main`. -/
def starterHero : Hero := { freshHero with pv := 20, inventory := [starterPotion, starterSalve] }

/-- The first catalog entry. -/
def goblinTemplate : MonsterTemplate :=
  ⟨"Goblin", .NORMAL, 20, 4, [("Sneaky Strike", 6/5), ("Rabid Attack", 7/5)]⟩

/-- The scenario of three consecutive basic attacks of a hero on one monster: the three
damages returned, the hero afterwards and the generator afterwards. -/
def threeAttacks (h : Hero) (target : Creature) (g : RandState) :
    (ℚ × ℚ × ℚ) × Hero × RandState :=
  let a1 := h.attaque creatureTarget target g
  let a2 := a1.2.1.attaque creatureTarget target a1.2.2
  let a3 := a2.2.1.attaque creatureTarget target a2.2.2
  ((a1.1, a2.1, a3.1), a3.2.1, a3.2.2)

/-- Source: the battle loop `while (battleContinues && monster.estVivant() &&
player.estVivant())`, run on the inputs the console supplies, one per iteration; the loop
stops consuming inputs once its condition is false. -/
def runBattle (s : Battle) (inputs : List TurnInput) : Battle :=
  inputs.foldl (fun s inp => if loopCond s = true then loopBody s inp else s) s

/-- Source: the state in which `main` enters the battle loop: the monster just built by
the encounter code, `playerTurn = true`, `battleContinues = true`. -/
def startBattle (player : Hero) (monstersDefeated : Int) (g : RandState) : Battle :=
  let (monster, g) := generateEncounter monstersDefeated g
  ⟨player, monster, true, true, g⟩

/-- The level-1 Frost Giant (an Ice monster) built by the encounter code. -/
def frostGiant1 : Creature :=
  Creature.create ⟨"Frost Giant", .ICE, 30, 3, [("Ice Shard", 7/5), ("Freeze", 6/5)]⟩ 1

/-- The fresh hero after the Frost Giant's special move (move draw 0): Frozen is attached
and the damage has been received. -/
def frozenHero : Hero :=
  (frostGiant1.performSpecialMove heroTarget freshHero none (constRand 0)).2.2.1

/-- The same hero as `frozenHero` with the status effects taken away. -/
def thawedHero : Hero := { frozenHero with activeEffects := [] }

/-- A hero who has drunk all eight starter Health Potions and still holds eight Healing
Salves: the inventory of `main` after eight uses of slot 0. -/
def potionlessHero : Hero :=
  { freshHero with
    pv := 20
    inventory := [{ starterPotion with quantity := 0 }, starterSalve] }

/-- The player turn in which `potionlessHero` faces the fresh Goblin. -/
def potionlessTurn : Battle := ⟨potionlessHero, goblin1, true, true, constRand 0⟩

/-- The console input: menu choice 4 (Use Item), then item choice 1. -/
def useFirstItem : TurnInput := ⟨4, 1, none⟩

/-- A Goblin already carrying Burn with 1 turn left. -/
def burnedGoblin : Creature := { goblin1 with activeEffects := [⟨"Burn", 1, 9/10, 1⟩] }

theorem foldl_mul_eq_prod {α : Type} (f : α → ℚ) (l : List α) (d : ℚ) :
    l.foldl (fun acc x => acc * f x) d = d * (l.map f).prod := by
  induction l generalizing d with
  | nil => simp
  | cons x xs ih => simp [List.foldl_cons, ih, mul_assoc]

theorem itemDefense_eq (items : List Item) (d : ℚ) :
    itemDefense items d = d * (items.map (fun item => 2 - item.defenseBuff)).prod := by
  unfold itemDefense
  exact foldl_mul_eq_prod (fun item => 2 - item.defenseBuff) items d

theorem itemDefense_nonneg (items : List Item) (d : ℚ) (hd : 0 ≤ d)
    (hb : ∀ item ∈ items, item.defenseBuff ≤ 2) : 0 ≤ itemDefense items d := by
  rw [itemDefense_eq]
  apply mul_nonneg hd
  apply List.prod_nonneg
  intro a ha
  rcases List.mem_map.1 ha with ⟨item, hi, rfl⟩
  have := hb item hi
  linarith

theorem healOverTime_le (pv_max : ℚ) (items : List Item) (pv : ℚ) (h : pv ≤ pv_max) :
    healOverTime pv_max items pv ≤ pv_max := by
  unfold healOverTime
  induction items generalizing pv with
  | nil => simpa using h
  | cons x xs ih =>
    rw [List.foldl_cons]
    apply ih
    split
    · exact min_le_right _ _
    · exact h

theorem healOverTime_no_heal (pv_max : ℚ) (items : List Item) (pv : ℚ)
    (h : ∀ item ∈ items, item.healAmount ≤ 0) : healOverTime pv_max items pv = pv := by
  unfold healOverTime
  induction items generalizing pv with
  | nil => rfl
  | cons x xs ih =>
    rw [List.foldl_cons]
    have hx : ¬ (x.healAmount > 0) := not_lt.2 (h x (List.mem_cons_self _ _))
    rw [if_neg hx]
    exact ih pv (fun item hi => h item (List.mem_cons_of_mem _ hi))

/-! ## Receiving damage -/

theorem creature_subitDegat_pv (c : Creature) (degat : ℚ) (g : RandState) :
    (c.subitDegat degat g).1.pv =
      if g.draws g.next % 4 > 1 then
        c.pv - degat * (c.activeEffects.map (fun e => e.defenseMultiplier)).prod
      else c.pv := by
  simp only [Creature.subitDegat, rand, foldl_mul_eq_prod]
  split <;> rfl

/-- Closed form of `Hero::subitDegat`: the three branches differ only in the damage
fed to the item-defense loop and in the block counter. -/
theorem hero_subitDegat_eq (h : Hero) (degat : ℚ) (answer : Option Int) (g : RandState) :
    h.subitDegat degat answer g =
      if h.isBlocking = true then
        if answer = some (generateMathProblem g).1.2 then
          ({ h with
             successful_blocks := h.successful_blocks + 1
             pv := h.pv - itemDefense h.activeItems (degat * (3/10)) },
           (generateMathProblem g).2)
        else
          ({ h with pv := h.pv - itemDefense h.activeItems degat }, (generateMathProblem g).2)
      else ({ h with pv := h.pv - itemDefense h.activeItems degat }, g) := by
  unfold Hero.subitDegat
  by_cases hb : h.isBlocking = true
  · simp only [hb, if_true]
    cases answer with
    | none => simp
    | some v =>
      by_cases hv : v = (generateMathProblem g).1.2
      · simp [hv]
      · simp [hv]
  · simp [hb]

theorem hero_subitDegat_pv (h : Hero) (degat : ℚ) (answer : Option Int) (g : RandState) :
    (h.subitDegat degat answer g).1.pv =
      h.pv - itemDefense h.activeItems
        (if h.isBlocking = true ∧ answer = some (generateMathProblem g).1.2
          then degat * (3/10) else degat) := by
  rw [hero_subitDegat_eq]
  by_cases hb : h.isBlocking = true
  · by_cases hv : answer = some (generateMathProblem g).1.2
    · simp [hb, hv]
    · simp [hb, hv]
  · simp [hb]

theorem hero_subitDegat_pv_max (h : Hero) (degat : ℚ) (answer : Option Int) (g : RandState) :
    (h.subitDegat degat answer g).1.pv_max = h.pv_max := by
  rw [hero_subitDegat_eq]
  split
  · split <;> rfl
  · rfl

/-- C1 (as stated, refuted): a Goblin with 5 of 30 HP that is hit (roll 2) for 10, and a
hero with 3 of 45 HP who is not blocking and receives 10, both end with negative HP. -/
theorem subitDegat_negative_hp :
    (0 ≤ woundedGoblin.pv ∧ woundedGoblin.pv ≤ woundedGoblin.pv_max ∧
      (woundedGoblin.subitDegat 10 (constRand 2)).1.pv = -5) ∧
    (0 ≤ woundedHero.pv ∧ woundedHero.pv ≤ woundedHero.pv_max ∧
      (woundedHero.subitDegat 10 none (constRand 2)).1.pv = -7) := by
  refine ⟨⟨?_, ?_, ?_⟩, ?_, ?_, ?_⟩
  · norm_num [woundedGoblin]
  · norm_num [woundedGoblin, goblin1, Creature.create]
  · rw [creature_subitDegat_pv]
    norm_num [woundedGoblin, goblin1, Creature.create, constRand]
  · norm_num [woundedHero]
  · norm_num [woundedHero, freshHero, Hero.create, Creature.create]
  · rw [hero_subitDegat_pv]
    norm_num [woundedHero, freshHero, Hero.create, Creature.create, itemDefense]

/-- C1 (amended): `subitDegat` does not clamp. For a monster with `0 <= pv`, HP stays
non-negative exactly when the roll is a dodge (0 or 1) or the final damage (raw damage
times the product of its effects' defense multipliers) is at most `pv`. For a hero, HP
stays non-negative exactly when the damage applied (raw, or 30% of raw on a successful
block, through the item-defense loop) is at most `pv`. -/
theorem subitDegat_nonneg_iff (c : Creature) (h : Hero) (degat : ℚ) (answer : Option Int)
    (g : RandState) (hc : 0 ≤ c.pv) :
    (0 ≤ (c.subitDegat degat g).1.pv ↔
      (g.draws g.next % 4 ≤ 1 ∨
        degat * (c.activeEffects.map (fun e => e.defenseMultiplier)).prod ≤ c.pv)) ∧
    (0 ≤ (h.subitDegat degat answer g).1.pv ↔
      itemDefense h.activeItems
        (if h.isBlocking = true ∧ answer = some (generateMathProblem g).1.2
          then degat * (3/10) else degat) ≤ h.pv) := by
  constructor
  · rw [creature_subitDegat_pv]
    by_cases hr : g.draws g.next % 4 > 1
    · rw [if_pos hr]
      constructor
      · intro h0; right; linarith
      · rintro (h1 | h1)
        · omega
        · linarith
    · rw [if_neg hr]
      constructor
      · intro _; left; omega
      · intro _; exact hc
  · rw [hero_subitDegat_pv]
    constructor <;> intro h0 <;> linarith

/-- C1 (amended), instance: the fresh Goblin (30 HP) hit for 10 keeps 20 HP. -/
theorem subitDegat_nonneg_iff_witness :
    0 ≤ goblin1.pv ∧
    ((0 ≤ (goblin1.subitDegat 10 (constRand 2)).1.pv ↔
      ((constRand 2).draws (constRand 2).next % 4 ≤ 1 ∨
        10 * (goblin1.activeEffects.map (fun e => e.defenseMultiplier)).prod ≤ goblin1.pv)) ∧
    (0 ≤ (freshHero.subitDegat 10 none (constRand 2)).1.pv ↔
      itemDefense freshHero.activeItems
        (if freshHero.isBlocking = true ∧ none = some (generateMathProblem (constRand 2)).1.2
          then 10 * (3/10) else 10) ≤ freshHero.pv)) :=
  ⟨by norm_num [goblin1, Creature.create],
   subitDegat_nonneg_iff goblin1 freshHero 10 none (constRand 2)
     (by norm_num [goblin1, Creature.create])⟩

/-! ## Experience and levels -/

theorem addXPLoop_unfold (h : Hero) :
    addXPLoop h = if 100 ≤ h.xp then addXPLoop (levelUp h) else h := by
  rw [addXPLoop]

theorem addXPLoop_eq_iterate (k : Nat) (h : Hero) (h0 : 100 * (k : ℚ) ≤ h.xp)
    (h1 : h.xp < 100 * ((k : ℚ) + 1)) : addXPLoop h = levelUp^[k] h := by
  induction k generalizing h with
  | zero =>
    rw [addXPLoop_unfold, if_neg]
    · rfl
    · simp at h1; linarith
  | succ n ih =>
    have hx : 100 ≤ h.xp := by
      push_cast at h0
      have : (0 : ℚ) ≤ n := Nat.cast_nonneg n
      linarith
    rw [addXPLoop_unfold, if_pos hx, Function.iterate_succ_apply]
    apply ih
    · simp only [levelUp]; push_cast at h0; linarith
    · simp only [levelUp]; push_cast at h1; linarith

theorem levelUp_iterate (k : Nat) (h : Hero) :
    levelUp^[k] h =
      { h with
        niveau := h.niveau + k
        pv_max := h.pv_max + 10 * k
        pa := h.pa + 3 * k
        xp := h.xp - 100 * k
        pv := if k = 0 then h.pv else h.pv_max + 10 * k } := by
  induction k with
  | zero => simp
  | succ n ih =>
    rw [Function.iterate_succ_apply', ih]
    simp only [levelUp, Nat.cast_succ, Nat.succ_ne_zero, if_false, Hero.mk.injEq,
      Creature.mk.injEq, true_and, and_true]
    refine ⟨⟨?_, ?_, ?_, ?_⟩, ?_⟩ <;> ring

/-- The number of level-ups performed by the loop of `addXP` on a non-negative total. -/
theorem addXPLoop_floor (h : Hero) (h0 : 0 ≤ h.xp) :
    addXPLoop h = levelUp^[(Int.floor (h.xp / 100)).toNat] h := by
  have hf : 0 ≤ Int.floor (h.xp / 100) := Int.floor_nonneg.2 (by positivity)
  have hk : ((Int.floor (h.xp / 100)).toNat : ℚ) = ((Int.floor (h.xp / 100) : Int) : ℚ) := by
    have := Int.toNat_of_nonneg hf
    exact_mod_cast congrArg (fun z : Int => (z : ℚ)) this
  apply addXPLoop_eq_iterate
  · rw [hk]
    have := Int.floor_le (h.xp / 100)
    linarith
  · rw [hk]
    have := Int.lt_floor_add_one (h.xp / 100)
    linarith

theorem addXPLoop_pv_le (h : Hero) (hinv : h.pv ≤ h.pv_max) :
    (addXPLoop h).pv ≤ (addXPLoop h).pv_max := by
  by_cases h0 : 0 ≤ h.xp
  · rw [addXPLoop_floor h h0, levelUp_iterate]
    simp only
    split
    · have : (0 : ℚ) ≤ ((Int.floor (h.xp / 100)).toNat : ℚ) := Nat.cast_nonneg _
      linarith
    · exact le_refl _
  · rw [addXPLoop_unfold, if_neg]
    · exact hinv
    · linarith

theorem addXPLoop32_pv_le (fuel : Nat) (h h' : Hero) (hinv : h.pv ≤ h.pv_max)
    (hrun : addXPLoop32 fuel h = some h') : h'.pv ≤ h'.pv_max := by
  induction fuel generalizing h with
  | zero => simp [addXPLoop32] at hrun
  | succ f ih =>
    unfold addXPLoop32 at hrun
    split at hrun
    · exact ih (levelUp32 h) (le_refl _) hrun
    · cases hrun
      exact hinv

theorem useItem_pv_le (h : Hero) (index : Int) (hinv : h.pv ≤ h.pv_max) :
    (h.useItem index).pv ≤ (h.useItem index).pv_max := by
  unfold Hero.useItem
  split
  · split
    · exact hinv
    · split
      · exact hinv
      · split <;> split <;> first | exact min_le_right _ _ | exact hinv
  · exact hinv

/-- C2: `pv <= pv_max` is preserved by `useItem` (any index), `updateActiveItems`,
`addXP` (any amount) and `subitDegat` (any damage `>= 0`, every active item having
`defenseBuff <= 2`). For `addXP` this holds of the loop read in exact arithmetic and of
the binary32 loop whenever it returns. -/
theorem hp_le_max_preserved (h : Hero) (hinv : h.pv ≤ h.pv_max) :
    (∀ index : Int, (h.useItem index).pv ≤ (h.useItem index).pv_max) ∧
    h.updateActiveItems.pv ≤ h.updateActiveItems.pv_max ∧
    (∀ a : ℚ, (h.addXP a).pv ≤ (h.addXP a).pv_max) ∧
    (∀ (d : ℚ) (answer : Option Int) (g : RandState), 0 ≤ d →
      (∀ item ∈ h.activeItems, item.defenseBuff ≤ 2) →
      (h.subitDegat d answer g).1.pv ≤ (h.subitDegat d answer g).1.pv_max) ∧
    (∀ (fuel : Nat) (a : ℚ) (h' : Hero), h.addXP32 fuel a = some h' → h'.pv ≤ h'.pv_max) := by
  refine ⟨fun index => useItem_pv_le h index hinv, ?_, ?_, ?_,
    fun fuel a h' hrun =>
      addXPLoop32_pv_le fuel { h with xp := round32 (h.xp + a) } h' hinv hrun⟩
  · exact healOverTime_le h.pv_max h.activeItems h.pv hinv
  · intro a
    exact addXPLoop_pv_le _ hinv
  · intro d answer g hd hb
    rw [hero_subitDegat_pv_max, hero_subitDegat_pv]
    have h3 : 0 ≤ itemDefense h.activeItems
        (if h.isBlocking = true ∧ answer = some (generateMathProblem g).1.2
          then d * (3/10) else d) := by
      apply itemDefense_nonneg _ _ _ hb
      split <;> linarith
    linarith

/-- C2, instance: a hero at 8 of 45 HP with a Healing Salve ticking. -/
theorem hp_le_max_preserved_witness :
    salvedHero.pv ≤ salvedHero.pv_max ∧
    ((∀ index : Int, (salvedHero.useItem index).pv ≤ (salvedHero.useItem index).pv_max) ∧
    salvedHero.updateActiveItems.pv ≤ salvedHero.updateActiveItems.pv_max ∧
    (∀ a : ℚ, (salvedHero.addXP a).pv ≤ (salvedHero.addXP a).pv_max) ∧
    (∀ (d : ℚ) (answer : Option Int) (g : RandState), 0 ≤ d →
      (∀ item ∈ salvedHero.activeItems, item.defenseBuff ≤ 2) →
      (salvedHero.subitDegat d answer g).1.pv ≤ (salvedHero.subitDegat d answer g).1.pv_max) ∧
    (∀ (fuel : Nat) (a : ℚ) (h' : Hero),
      salvedHero.addXP32 fuel a = some h' → h'.pv ≤ h'.pv_max)) :=
  ⟨by norm_num [salvedHero, freshHero, Hero.create, Creature.create],
   hp_le_max_preserved salvedHero
     (by norm_num [salvedHero, freshHero, Hero.create, Creature.create])⟩

/-- The loop of `addXP` read in exact arithmetic: for `0 <= xp < 100` and `a >= 0`, with
`k = floor((xp + a) / 100)`, it raises the level by `k`, `pv_max` by `10 k`, `pa` by `3 k`,
leaves `xp + a - 100 k` as xp (which lies in `[0, 100)`), sets `pv` to the new `pv_max`
when `k >= 1` and leaves `pv` unchanged when `k = 0`. The binary32 loop agrees with it
whenever its operations are exact (`addXPLoop32_exact`). -/
theorem addXP_levels (h : Hero) (a : ℚ) (hx0 : 0 ≤ h.xp) (_hx1 : h.xp < 100) (ha : 0 ≤ a) :
    let k : Int := Int.floor ((h.xp + a) / 100)
    (h.addXP a).niveau = h.niveau + k ∧
    (h.addXP a).pv_max = h.pv_max + 10 * k ∧
    (h.addXP a).pa = h.pa + 3 * k ∧
    (h.addXP a).xp = h.xp + a - 100 * k ∧
    0 ≤ (h.addXP a).xp ∧ (h.addXP a).xp < 100 ∧
    (1 ≤ k → (h.addXP a).pv = (h.addXP a).pv_max) ∧
    (k = 0 → (h.addXP a).pv = h.pv) := by
  intro k
  have hsum : 0 ≤ h.xp + a := add_nonneg hx0 ha
  have hk0 : 0 ≤ k := Int.floor_nonneg.2 (by positivity)
  have hkn : ((k.toNat : Int)) = k := Int.toNat_of_nonneg hk0
  have hkq : ((k.toNat : ℚ)) = (k : ℚ) := by exact_mod_cast congrArg (fun z : Int => (z : ℚ)) hkn
  have hfl : (k : ℚ) ≤ (h.xp + a) / 100 := Int.floor_le _
  have hfu : (h.xp + a) / 100 < (k : ℚ) + 1 := Int.lt_floor_add_one _
  have hrun : h.addXP a = levelUp^[k.toNat] { h with xp := h.xp + a } := by
    unfold Hero.addXP
    exact addXPLoop_floor _ hsum
  rw [hrun, levelUp_iterate]
  simp only [hkq, hkn]
  refine ⟨trivial, trivial, trivial, trivial, ?_, ?_, ?_, ?_⟩
  · linarith
  · linarith
  · intro h1
    have : k.toNat ≠ 0 := by omega
    rw [if_neg this]
  · intro h0
    have : k.toNat = 0 := by omega
    rw [if_pos this]

/-- The exact-arithmetic loop on `addXP(250)` for the fresh hero (xp 0, level 1): level 3,
xp 50 and `pv = pv_max`. -/
theorem addXP_levels_witness :
    (0 ≤ freshHero.xp ∧ freshHero.xp < 100 ∧ (0 : ℚ) ≤ 250) ∧ freshHero.niveau = 1 ∧
    (freshHero.addXP 250).niveau = 3 ∧ (freshHero.addXP 250).xp = 50 ∧
    (freshHero.addXP 250).pv = (freshHero.addXP 250).pv_max := by
  have hx0 : 0 ≤ freshHero.xp := by norm_num [freshHero, Hero.create]
  have hx1 : freshHero.xp < 100 := by norm_num [freshHero, Hero.create]
  have hfl : Int.floor ((freshHero.xp + 250) / 100) = 2 := by
    norm_num [freshHero, Hero.create, Int.floor_eq_iff]
  have key := addXP_levels freshHero 250 hx0 hx1 (by norm_num)
  simp only [hfl] at key
  obtain ⟨k1, -, -, k4, -, -, k7, -⟩ := key
  refine ⟨⟨hx0, hx1, by norm_num⟩, by simp [freshHero, Hero.create, Creature.create], ?_, ?_, ?_⟩
  · rw [k1]; simp [freshHero, Hero.create, Creature.create]
  · rw [k4]; norm_num [freshHero, Hero.create]
  · exact k7 (by norm_num)

/-! ## Outgoing damage -/

theorem typeMultiplier_values (a b : MonsterType) :
    typeMultiplier a b =
      match a, b with
      | .FIRE, .ICE => 3/2
      | .ICE, .FIRE => 1/2
      | .POISON, .UNDEAD => 1/2
      | .FIRE, .UNDEAD => 5/4
      | .ICE, .POISON => 5/4
      | _, _ => 1 := by
  cases a <;> cases b <;> simp [typeMultiplier]

theorem typeMultiplier_normal (b : MonsterType) : typeMultiplier .NORMAL b = 1 := by
  cases b <;> simp [typeMultiplier]

/-- C4: with no active status effects (and, for a hero, no active items)
`calculateDamage` returns `baseDamage` times the table multiplier; the multiplier is 1.5
for Fire->Ice, 0.5 for Ice->Fire, 0.5 for Poison->Undead, 1.25 for Fire->Undead, 1.25 for
Ice->Poison, 1 for each of the other 20 ordered pairs, hence always one of
0.5, 1, 1.25, 1.5. -/
theorem calculateDamage_table (c : Creature) (h : Hero) (baseDamage : ℚ)
    (targetType : MonsterType) (hc : c.activeEffects = []) (hh : h.activeEffects = [])
    (hi : h.activeItems = []) :
    c.calculateDamage baseDamage targetType = baseDamage * typeMultiplier c.type targetType ∧
    h.calculateDamage baseDamage targetType = baseDamage * typeMultiplier h.type targetType ∧
    typeMultiplier .FIRE .ICE = 3/2 ∧
    typeMultiplier .ICE .FIRE = 1/2 ∧
    typeMultiplier .POISON .UNDEAD = 1/2 ∧
    typeMultiplier .FIRE .UNDEAD = 5/4 ∧
    typeMultiplier .ICE .POISON = 5/4 ∧
    (∀ a b : MonsterType,
      (a, b) ∉ [(MonsterType.FIRE, MonsterType.ICE), (.ICE, .FIRE), (.POISON, .UNDEAD),
        (.FIRE, .UNDEAD), (.ICE, .POISON)] → typeMultiplier a b = 1) ∧
    (∀ a b : MonsterType,
      typeMultiplier a b = 1/2 ∨ typeMultiplier a b = 1 ∨ typeMultiplier a b = 5/4 ∨
        typeMultiplier a b = 3/2) := by
  refine ⟨?_, ?_, ?_, ?_, ?_, ?_, ?_, ?_, ?_⟩
  · simp [Creature.calculateDamage, hc]
  · simp [Hero.calculateDamage, Creature.calculateDamage, hh, hi]
  · simp [typeMultiplier_values]
  · simp [typeMultiplier_values]
  · simp [typeMultiplier_values]
  · simp [typeMultiplier_values]
  · simp [typeMultiplier_values]
  · intro a b hab
    cases a <;> cases b <;> simp [typeMultiplier_values] at hab ⊢
  · intro a b
    cases a <;> cases b <;> simp [typeMultiplier_values]

/-- C4, instance: the fresh Goblin and the fresh hero, base damage 10, against Ice. -/
theorem calculateDamage_table_witness :
    (goblin1.activeEffects = [] ∧ freshHero.activeEffects = [] ∧ freshHero.activeItems = []) ∧
    goblin1.calculateDamage 10 .ICE = 10 * typeMultiplier goblin1.type .ICE ∧
    freshHero.calculateDamage 10 .ICE = 10 * typeMultiplier freshHero.type .ICE :=
  ⟨⟨rfl, rfl, rfl⟩,
   (calculateDamage_table goblin1 freshHero 10 .ICE rfl rfl rfl).1,
   (calculateDamage_table goblin1 freshHero 10 .ICE rfl rfl rfl).2.1⟩

/-! ## The monster turn -/

theorem hero_subitDegat_activeItems (h : Hero) (degat : ℚ) (answer : Option Int)
    (g : RandState) : (h.subitDegat degat answer g).1.activeItems = h.activeItems := by
  rw [hero_subitDegat_eq]
  split
  · split <;> rfl
  · rfl

theorem specialMoveEffect_hero_activeItems (type : MonsterType) (h : Hero) :
    (specialMoveEffect heroTarget type h).activeItems = h.activeItems := by
  cases type <;> rfl

theorem monsterAction_activeItems (s : Battle) (inp : TurnInput) :
    (monsterAction s inp).player.activeItems = s.player.activeItems := by
  unfold monsterAction
  simp only [rand]
  split
  · unfold Creature.performSpecialMove
    split
    · rfl
    · simp only [rand, heroTarget]
      rw [hero_subitDegat_activeItems]
      exact specialMoveEffect_hero_activeItems _ _
  · simp only [Creature.attaque, rand]
    rw [hero_subitDegat_activeItems]

theorem endOfTurnUpdates_pv (s : Battle) :
    (endOfTurnUpdates s).player.pv = healOverTime s.player.pv_max s.player.activeItems s.player.pv :=
  rfl

/-- C5 (as stated, refuted): in `salveTurn` the Goblin's attack (26/5, doubled by the
salve's `defenseBuff` of 0) brings the hero from 8 HP to -12/5, the end-of-turn item tick
then heals 6, and the loop goes on with 18/5 HP. -/
theorem monsterTurn_hero_revived :
    salveTurn.playerTurn = false ∧ loopCond salveTurn = true ∧
    (monsterAction salveTurn noInput).player.pv = -12/5 ∧
    (loopBody salveTurn noInput).player.pv = 18/5 ∧
    loopCond (loopBody salveTurn noInput) = true := by
  have hact : (monsterAction salveTurn noInput).player.pv = -12/5 := by
    simp only [monsterAction, salveTurn, rand, constRand, Creature.attaque, heroTarget]
    norm_num [hero_subitDegat_pv, salvedHero, freshHero, Hero.create, Creature.create,
      goblin1, Creature.calculateDamage, typeMultiplier_normal, itemDefense, starterSalve]
  have hmax : (monsterAction salveTurn noInput).player.pv_max = 45 := by
    simp only [monsterAction, salveTurn, rand, constRand, Creature.attaque, heroTarget]
    norm_num [hero_subitDegat_pv_max, salvedHero, freshHero, Hero.create, Creature.create]
  have hitems : (monsterAction salveTurn noInput).player.activeItems = [starterSalve] := by
    rw [monsterAction_activeItems]; rfl
  have hmon : (monsterAction salveTurn noInput).monster.pv = 30 := by
    simp only [monsterAction, salveTurn, rand, constRand, Creature.attaque, heroTarget]
    norm_num [goblin1, Creature.create]
  have hpv : (loopBody salveTurn noInput).player.pv = 18/5 := by
    show (endOfTurnUpdates (monsterAction salveTurn noInput)).player.pv = 18/5
    rw [endOfTurnUpdates_pv, hact, hmax, hitems]
    norm_num [healOverTime, starterSalve]
  refine ⟨rfl, ?_, hact, hpv, ?_⟩
  · simp only [loopCond, salveTurn, Creature.estVivant, salvedHero, goblin1, Creature.create]
    norm_num
  · have hm : (loopBody salveTurn noInput).monster.pv = 30 := hmon
    have hb : (loopBody salveTurn noInput).battleContinues = true := by
      simp [loopBody, salveTurn, monsterTurn, endOfTurnUpdates, monsterAction, rand, constRand,
        Creature.attaque]
    simp [loopCond, Creature.estVivant, hpv, hm, hb]

/-- C5 (amended): the loop tests HP only at the head of an iteration, after the
end-of-turn updates of a monster turn. If the monster's action brings the hero's HP to 0
or below and no active item of the hero has `healAmount > 0`, the rest of the turn leaves
the hero's HP unchanged and the loop condition is then false with the hero not alive
(defeat). -/
theorem monsterTurn_defeat (s : Battle) (inp : TurnInput) (hturn : s.playerTurn = false)
    (hdead : (monsterAction s inp).player.pv ≤ 0)
    (hno : ∀ item ∈ s.player.activeItems, item.healAmount ≤ 0) :
    (loopBody s inp).player.pv = (monsterAction s inp).player.pv ∧
    (loopBody s inp).player.toCreature.estVivant = false ∧
    loopCond (loopBody s inp) = false := by
  have hpv : (loopBody s inp).player.pv = (monsterAction s inp).player.pv := by
    simp only [loopBody, hturn]
    show (endOfTurnUpdates (monsterAction s inp)).player.pv = _
    rw [endOfTurnUpdates_pv]
    apply healOverTime_no_heal
    rw [monsterAction_activeItems]
    exact hno
  have hdie : (loopBody s inp).player.toCreature.estVivant = false := by
    simp only [Creature.estVivant, decide_eq_false_iff_not, not_lt]
    rw [hpv]; exact hdead
  refine ⟨hpv, hdie, ?_⟩
  simp [loopCond, hdie]

/-- C5 (amended), instance: the hero at 3 HP without any active item is attacked by the
fresh Goblin for 26/5. -/
theorem monsterTurn_defeat_witness :
    let s : Battle := ⟨woundedHero, goblin1, false, true, constRand 10⟩
    (s.playerTurn = false ∧ (monsterAction s noInput).player.pv ≤ 0 ∧
      ∀ item ∈ s.player.activeItems, item.healAmount ≤ 0) ∧
    (loopBody s noInput).player.pv = (monsterAction s noInput).player.pv ∧
    (loopBody s noInput).player.toCreature.estVivant = false ∧
    loopCond (loopBody s noInput) = false := by
  intro s
  have hdead : (monsterAction s noInput).player.pv ≤ 0 := by
    simp only [s, monsterAction, rand, constRand, Creature.attaque, heroTarget]
    norm_num [hero_subitDegat_pv, woundedHero, freshHero, Hero.create, Creature.create,
      goblin1, Creature.calculateDamage, typeMultiplier_normal, itemDefense]
  have hno : ∀ item ∈ s.player.activeItems, item.healAmount ≤ 0 := by
    intro item hi
    simp [s, woundedHero, freshHero, Hero.create] at hi
  exact ⟨⟨rfl, hdead, hno⟩, monsterTurn_defeat s noInput rfl hdead hno⟩

/-! ## The status-effect map -/

theorem effectMap_name_inj {m : List StatusEffect} (hwf : EffectMapWF m) {a b : StatusEffect}
    (ha : a ∈ m) (hb : b ∈ m) (hab : a.name = b.name) : a = b := by
  unfold EffectMapWF at hwf
  induction m with
  | nil => cases ha
  | cons x xs ih =>
    rw [List.pairwise_cons] at hwf
    rcases List.mem_cons.1 ha with rfl | ha'
    · rcases List.mem_cons.1 hb with rfl | hb'
      · rfl
      · exact absurd hab (ne_of_lt (hwf.1 b hb'))
    · rcases List.mem_cons.1 hb with rfl | hb'
      · exact absurd hab.symm (ne_of_lt (hwf.1 a ha'))
      · exact ih hwf.2 ha' hb'

theorem effectFind_eq_some {m : List StatusEffect} (hwf : EffectMapWF m) (n : String)
    (e : StatusEffect) : effectFind n m = some e ↔ e ∈ m ∧ e.name = n := by
  unfold effectFind
  constructor
  · intro h
    exact ⟨List.mem_of_find?_eq_some h, by simpa using List.find?_some h⟩
  · rintro ⟨hm, hn⟩
    cases hf : m.find? (fun e => decide (e.name = n)) with
    | none =>
      have := List.find?_eq_none.1 hf e hm
      simp [hn] at this
    | some x =>
      have hx : x ∈ m := List.mem_of_find?_eq_some hf
      have hxn : x.name = n := by simpa using List.find?_some hf
      rw [effectMap_name_inj hwf hx hm (hxn.trans hn.symm)]

theorem effectFind_eq_none (m : List StatusEffect) (n : String) :
    effectFind n m = none ↔ ∀ e ∈ m, e.name ≠ n := by
  unfold effectFind
  simp [List.find?_eq_none]

theorem effectInsert_mem {m : List StatusEffect} (hwf : EffectMapWF m) (e x : StatusEffect) :
    x ∈ effectInsert e m ↔ x = e ∨ (x ∈ m ∧ x.name ≠ e.name) := by
  unfold EffectMapWF at hwf
  induction m with
  | nil => simp [effectInsert]
  | cons y ys ih =>
    rw [List.pairwise_cons] at hwf
    unfold effectInsert
    by_cases h1 : e.name < y.name
    · rw [if_pos h1]
      have hall : ∀ z ∈ y :: ys, z.name ≠ e.name := by
        intro z hz
        rcases List.mem_cons.1 hz with rfl | hz'
        · exact (ne_of_lt h1).symm
        · exact (ne_of_lt (lt_trans h1 (hwf.1 z hz'))).symm
      constructor
      · intro hx
        rcases List.mem_cons.1 hx with rfl | hx'
        · exact Or.inl rfl
        · exact Or.inr ⟨hx', hall x hx'⟩
      · rintro (rfl | ⟨hx, -⟩)
        · exact List.mem_cons_self _ _
        · exact List.mem_cons_of_mem _ hx
    · rw [if_neg h1]
      by_cases h2 : e.name = y.name
      · rw [if_pos h2]
        constructor
        · intro hx
          rcases List.mem_cons.1 hx with rfl | hx'
          · exact Or.inl rfl
          · refine Or.inr ⟨List.mem_cons_of_mem _ hx', ?_⟩
            rw [h2]
            exact (ne_of_lt (hwf.1 x hx')).symm
        · rintro (rfl | ⟨hx, hne⟩)
          · exact List.mem_cons_self _ _
          · rcases List.mem_cons.1 hx with rfl | hx'
            · exact absurd h2.symm hne
            · exact List.mem_cons_of_mem _ hx'
      · rw [if_neg h2]
        rw [List.mem_cons, ih hwf.2, List.mem_cons]
        constructor
        · rintro (rfl | rfl | ⟨hx, hne⟩)
          · exact Or.inr ⟨Or.inl rfl, fun h => h2 h.symm⟩
          · exact Or.inl rfl
          · exact Or.inr ⟨Or.inr hx, hne⟩
        · rintro (rfl | ⟨rfl | hx, hne⟩)
          · exact Or.inr (Or.inl rfl)
          · exact Or.inl rfl
          · exact Or.inr (Or.inr ⟨hx, hne⟩)

theorem effectInsert_wf {m : List StatusEffect} (hwf : EffectMapWF m) (e : StatusEffect) :
    EffectMapWF (effectInsert e m) := by
  unfold EffectMapWF at hwf ⊢
  induction m with
  | nil => simp [effectInsert]
  | cons y ys ih =>
    have hwf' := List.pairwise_cons.1 hwf
    unfold effectInsert
    by_cases h1 : e.name < y.name
    · rw [if_pos h1]
      refine List.pairwise_cons.2 ⟨?_, hwf⟩
      intro z hz
      rcases List.mem_cons.1 hz with rfl | hz'
      · exact h1
      · exact lt_trans h1 (hwf'.1 z hz')
    · rw [if_neg h1]
      by_cases h2 : e.name = y.name
      · rw [if_pos h2]
        refine List.pairwise_cons.2 ⟨?_, hwf'.2⟩
        intro z hz
        rw [h2]
        exact hwf'.1 z hz
      · rw [if_neg h2]
        refine List.pairwise_cons.2 ⟨?_, ih hwf'.2⟩
        intro z hz
        rcases (effectInsert_mem hwf'.2 e z).1 hz with rfl | ⟨hz', -⟩
        · exact lt_of_le_of_ne (not_lt.1 h1) (fun h => h2 h.symm)
        · exact hwf'.1 z hz'

theorem erase_names_eq_filter (ns : List String) (m : List StatusEffect) :
    ns.foldl (fun m name => m.filter (fun e => !decide (e.name = name))) m =
      m.filter (fun e => decide (e.name ∉ ns)) := by
  induction ns generalizing m with
  | nil => simp
  | cons n ns ih =>
    rw [List.foldl_cons, ih, List.filter_filter]
    apply List.filter_congr
    intro x _
    by_cases h1 : x.name = n <;> by_cases h2 : x.name ∈ ns <;> simp [h1, h2]

theorem tick_wf {m : List StatusEffect} (hwf : EffectMapWF m) :
    EffectMapWF (m.map (fun effect => { effect with duration := effect.duration - 1 })) := by
  unfold EffectMapWF at hwf ⊢
  rw [List.pairwise_map]
  exact hwf

/-- On a well-formed map, erasing the expired keys keeps exactly the effects whose
decremented duration is positive. -/
theorem updateEffects_eq_filter {m : List StatusEffect} (hwf : EffectMapWF m) :
    updateEffects m =
      (m.map (fun effect => { effect with duration := effect.duration - 1 })).filter
        (fun e => decide (0 < e.duration)) := by
  unfold updateEffects
  simp only
  rw [erase_names_eq_filter]
  apply List.filter_congr
  intro x hx
  have hwf' := tick_wf hwf
  by_cases hd : 0 < x.duration
  · have : x.name ∉ List.map (fun e => e.name)
        (List.filter (fun effect => decide (effect.duration ≤ 0))
          (m.map (fun effect => { effect with duration := effect.duration - 1 }))) := by
      intro hmem
      rcases List.mem_map.1 hmem with ⟨y, hy, hyn⟩
      rw [List.mem_filter] at hy
      have hyx : y = x := effectMap_name_inj hwf' hy.1 hx hyn
      have : y.duration ≤ 0 := by simpa using hy.2
      rw [hyx] at this
      omega
    simp [this, hd]
  · have : x.name ∈ List.map (fun e => e.name)
        (List.filter (fun effect => decide (effect.duration ≤ 0))
          (m.map (fun effect => { effect with duration := effect.duration - 1 }))) := by
      apply List.mem_map.2
      refine ⟨x, ?_, rfl⟩
      rw [List.mem_filter]
      exact ⟨hx, by simpa using hd⟩
    simp [this, hd]

theorem updateEffects_wf {m : List StatusEffect} (hwf : EffectMapWF m) :
    EffectMapWF (updateEffects m) := by
  rw [updateEffects_eq_filter hwf]
  exact List.Pairwise.filter _ (tick_wf hwf)

theorem updateEffects_mem {m : List StatusEffect} (hwf : EffectMapWF m) (e : StatusEffect) :
    e ∈ updateEffects m ↔
      ∃ e0 ∈ m, 1 < e0.duration ∧ e = { e0 with duration := e0.duration - 1 } := by
  rw [updateEffects_eq_filter hwf, List.mem_filter, List.mem_map]
  constructor
  · rintro ⟨⟨e0, h0, rfl⟩, hd⟩
    have : 0 < e0.duration - 1 := by simpa using hd
    exact ⟨e0, h0, by omega, rfl⟩
  · rintro ⟨e0, h0, hd, rfl⟩
    refine ⟨⟨e0, h0, rfl⟩, ?_⟩
    simp only [decide_eq_true_eq]
    omega

theorem updateEffects_iterate_wf {m : List StatusEffect} (hwf : EffectMapWF m) (k : Nat) :
    EffectMapWF (updateEffects^[k] m) := by
  induction k with
  | zero => exact hwf
  | succ n ih =>
    rw [Function.iterate_succ_apply']
    exact updateEffects_wf ih

theorem updateEffects_iterate_mem {m : List StatusEffect} (hwf : EffectMapWF m) (k : Nat)
    (e : StatusEffect) :
    e ∈ updateEffects^[k] m ↔
      ∃ e0 ∈ m, (k = 0 ∨ (k : Int) < e0.duration) ∧
        e = { e0 with duration := e0.duration - k } := by
  induction k generalizing e with
  | zero =>
    simp only [Function.iterate_zero, id_eq, true_or, true_and, Nat.cast_zero, sub_zero]
    constructor
    · intro h; exact ⟨e, h, rfl⟩
    · rintro ⟨e0, h0, rfl⟩; exact h0
  | succ n ih =>
    rw [Function.iterate_succ_apply', updateEffects_mem (updateEffects_iterate_wf hwf n)]
    constructor
    · rintro ⟨e1, h1, hd, rfl⟩
      rcases (ih e1).1 h1 with ⟨e0, h0, hk, rfl⟩
      refine ⟨e0, h0, Or.inr ?_, ?_⟩
      · simp only at hd; push_cast; omega
      · simp only [StatusEffect.mk.injEq, true_and, and_true]; push_cast; omega
    · rintro ⟨e0, h0, hk, rfl⟩
      have hk' : ((n : Int) + 1) < e0.duration := by
        rcases hk with hk | hk
        · exact absurd hk (Nat.succ_ne_zero n)
        · push_cast at hk; exact hk
      refine ⟨{ e0 with duration := e0.duration - n }, ?_, ?_, ?_⟩
      · exact (ih _).2 ⟨e0, h0, Or.inr (by omega), rfl⟩
      · simp only; omega
      · simp only [StatusEffect.mk.injEq, true_and, and_true]; push_cast; omega

theorem updateStatusEffects_iterate (c : Creature) (k : Nat) :
    (Creature.updateStatusEffects^[k] c).activeEffects = updateEffects^[k] c.activeEffects := by
  induction k with
  | zero => rfl
  | succ n ih =>
    rw [Function.iterate_succ_apply', Function.iterate_succ_apply']
    simp only [Creature.updateStatusEffects, ih]

theorem hero_updateStatusEffects_iterate (h : Hero) (k : Nat) :
    (Hero.updateStatusEffects^[k] h).activeEffects = updateEffects^[k] h.activeEffects := by
  induction k with
  | zero => rfl
  | succ n ih =>
    rw [Function.iterate_succ_apply', Function.iterate_succ_apply']
    simp only [Hero.updateStatusEffects, ih]

/-- Expiry on the map itself: after inserting an effect of duration `d >= 1` into a
well-formed map, `k < d` ticks leave it with `d - k` turns and `d` ticks remove it. -/
theorem effectMap_expiry (m : List StatusEffect) (name : String) (d : Int) (dm df : ℚ)
    (hwf : EffectMapWF m) (hd : 1 ≤ d) :
    (∀ k : Nat, (k : Int) < d →
      effectFind name (updateEffects^[k] (effectInsert ⟨name, d, dm, df⟩ m)) =
        some ⟨name, d - k, dm, df⟩) ∧
    effectFind name (updateEffects^[d.toNat] (effectInsert ⟨name, d, dm, df⟩ m)) = none := by
  have hwf0 : EffectMapWF (effectInsert ⟨name, d, dm, df⟩ m) := effectInsert_wf hwf _
  have hmem0 : (⟨name, d, dm, df⟩ : StatusEffect) ∈ effectInsert ⟨name, d, dm, df⟩ m :=
    (effectInsert_mem hwf _ _).2 (Or.inl rfl)
  refine ⟨?_, ?_⟩
  · intro k hk
    rw [effectFind_eq_some (updateEffects_iterate_wf hwf0 k)]
    refine ⟨?_, rfl⟩
    rw [updateEffects_iterate_mem hwf0]
    exact ⟨⟨name, d, dm, df⟩, hmem0, Or.inr hk, rfl⟩
  · rw [effectFind_eq_none]
    intro e he hn
    rw [updateEffects_iterate_mem hwf0] at he
    rcases he with ⟨e0, h0, hk, rfl⟩
    have he0 : e0 = ⟨name, d, dm, df⟩ := effectMap_name_inj hwf0 h0 hmem0 hn
    have hdn : ((d.toNat : Nat) : Int) = d := Int.toNat_of_nonneg (by omega)
    rcases hk with hk | hk
    · omega
    · rw [he0, hdn] at hk
      simp only at hk
      omega

/-- C6: on a well-formed effect map, an effect applied with duration `d >= 1` and not
re-applied is still present with remaining duration `d - k` after `k < d` calls of
`updateStatusEffects` and is absent after exactly `d` calls; one call keeps every effect
of duration `> 1` with its name and multipliers (duration one less) and nothing else.
This holds for a monster and for the hero, whose `updateStatusEffects` (the call made at
the end of every monster turn) is the inherited method: it acts on the hero's effect map
as `Creature::updateStatusEffects` does and changes no other hero field; the end of a
monster turn applies exactly these two ticks to the two effect maps. -/
theorem statusEffect_expiry (c : Creature) (h : Hero) (name : String) (d : Int) (dm df : ℚ)
    (hwf : EffectMapWF c.activeEffects) (hwfh : EffectMapWF h.activeEffects) (hd : 1 ≤ d) :
    (∀ k : Nat, (k : Int) < d →
      effectFind name
        (Creature.updateStatusEffects^[k] (c.addStatusEffect name d dm df)).activeEffects =
          some ⟨name, d - k, dm, df⟩) ∧
    effectFind name
      (Creature.updateStatusEffects^[d.toNat] (c.addStatusEffect name d dm df)).activeEffects =
        none ∧
    (∀ e : StatusEffect, e ∈ c.updateStatusEffects.activeEffects ↔
      ∃ e0 ∈ c.activeEffects, 1 < e0.duration ∧ e = { e0 with duration := e0.duration - 1 }) ∧
    (∀ k : Nat, (k : Int) < d →
      effectFind name
        (Hero.updateStatusEffects^[k] (heroTarget.addStatusEffect h name d dm df)).activeEffects =
          some ⟨name, d - k, dm, df⟩) ∧
    effectFind name
      (Hero.updateStatusEffects^[d.toNat]
        (heroTarget.addStatusEffect h name d dm df)).activeEffects = none ∧
    (∀ e : StatusEffect, e ∈ h.updateStatusEffects.activeEffects ↔
      ∃ e0 ∈ h.activeEffects, 1 < e0.duration ∧ e = { e0 with duration := e0.duration - 1 }) ∧
    h.updateStatusEffects.toCreature = h.toCreature.updateStatusEffects ∧
    h.updateStatusEffects = { h with toCreature := h.toCreature.updateStatusEffects } ∧
    (∀ s : Battle,
      (endOfTurnUpdates s).player.activeEffects = s.player.updateStatusEffects.activeEffects ∧
      (endOfTurnUpdates s).monster = s.monster.updateStatusEffects) := by
  refine ⟨?_, ?_, ?_, ?_, ?_, ?_, rfl, rfl, fun _ => ⟨rfl, rfl⟩⟩
  · intro k hk
    rw [updateStatusEffects_iterate]
    exact (effectMap_expiry c.activeEffects name d dm df hwf hd).1 k hk
  · rw [updateStatusEffects_iterate]
    exact (effectMap_expiry c.activeEffects name d dm df hwf hd).2
  · intro e
    exact updateEffects_mem hwf e
  · intro k hk
    rw [hero_updateStatusEffects_iterate]
    exact (effectMap_expiry h.activeEffects name d dm df hwfh hd).1 k hk
  · rw [hero_updateStatusEffects_iterate]
    exact (effectMap_expiry h.activeEffects name d dm df hwfh hd).2
  · intro e
    exact updateEffects_mem hwfh e

/-- C6, instance: Burn (2 turns) applied to the fresh Goblin and to the fresh hero, whose
maps are empty. -/
theorem statusEffect_expiry_witness :
    (EffectMapWF goblin1.activeEffects ∧ EffectMapWF freshHero.activeEffects ∧ (1 : Int) ≤ 2) ∧
    (∀ k : Nat, (k : Int) < 2 →
      effectFind "Burn"
        (Creature.updateStatusEffects^[k]
          (goblin1.addStatusEffect "Burn" 2 (9/10) 1)).activeEffects =
          some ⟨"Burn", 2 - k, 9/10, 1⟩) ∧
    effectFind "Burn"
      (Creature.updateStatusEffects^[(2 : Int).toNat]
        (goblin1.addStatusEffect "Burn" 2 (9/10) 1)).activeEffects = none ∧
    (∀ k : Nat, (k : Int) < 2 →
      effectFind "Burn"
        (Hero.updateStatusEffects^[k]
          (heroTarget.addStatusEffect freshHero "Burn" 2 (9/10) 1)).activeEffects =
          some ⟨"Burn", 2 - k, 9/10, 1⟩) ∧
    effectFind "Burn"
      (Hero.updateStatusEffects^[(2 : Int).toNat]
        (heroTarget.addStatusEffect freshHero "Burn" 2 (9/10) 1)).activeEffects = none :=
  ⟨⟨List.Pairwise.nil, List.Pairwise.nil, by decide⟩,
   (statusEffect_expiry goblin1 freshHero "Burn" 2 (9/10) 1 List.Pairwise.nil
     List.Pairwise.nil (by decide)).1,
   (statusEffect_expiry goblin1 freshHero "Burn" 2 (9/10) 1 List.Pairwise.nil
     List.Pairwise.nil (by decide)).2.1,
   (statusEffect_expiry goblin1 freshHero "Burn" 2 (9/10) 1 List.Pairwise.nil
     List.Pairwise.nil (by decide)).2.2.2.1,
   (statusEffect_expiry goblin1 freshHero "Burn" 2 (9/10) 1 List.Pairwise.nil
     List.Pairwise.nil (by decide)).2.2.2.2.1⟩

/-! ## Items -/

/-- C7: `useItem` changes nothing when the index is out of bounds (negative or at least
the inventory size) or the slot at the index has quantity `<= 0`. -/
theorem useItem_noop (h : Hero) (index : Int)
    (hfail : index < 0 ∨ (h.inventory.length : Int) ≤ index ∨
      ∃ item, h.inventory[index.toNat]? = some item ∧ item.quantity ≤ 0) :
    h.useItem index = h := by
  unfold Hero.useItem
  split
  · rename_i hin
    split
    · rfl
    · rename_i item hitem
      rcases hfail with h1 | h2 | ⟨item', hitem', hq⟩
      · omega
      · omega
      · rw [hitem] at hitem'
        cases hitem'
        rw [if_pos hq]
  · rfl

/-- C7, instance: index 0 on a hero whose only slot has quantity 0. -/
theorem useItem_noop_witness :
    (((0 : Int) < 0 ∨ (emptySlotHero.inventory.length : Int) ≤ 0 ∨
      ∃ item, emptySlotHero.inventory[(0 : Int).toNat]? = some item ∧ item.quantity ≤ 0)) ∧
    emptySlotHero.useItem 0 = emptySlotHero :=
  ⟨Or.inr (Or.inr ⟨_, rfl, le_refl _⟩),
   useItem_noop emptySlotHero 0 (Or.inr (Or.inr ⟨_, rfl, le_refl _⟩))⟩

/-! ## The hero's special move -/

/-- C8: with `comboPoints < 3`, `performHeroSpecialMove` returns the insufficient-combo
text and leaves the hero, the target and the generator exactly as they were. -/
theorem performHeroSpecialMove_insufficient {τ : Type} (T : TargetOps τ) (h : Hero)
    (target : τ) (answer : Option Int) (g : RandState) (hc : h.comboPoints < 3) :
    h.performHeroSpecialMove T target answer g =
      ("Not enough combo points! (Need 3, have " ++ toString h.comboPoints ++ ")",
        h, target, g) := by
  unfold Hero.performHeroSpecialMove
  rw [if_pos hc]
  rfl

/-- C8, instance: two combo points against the fresh Goblin. -/
theorem performHeroSpecialMove_insufficient_witness :
    (comboHero 2).comboPoints < 3 ∧
    (comboHero 2).performHeroSpecialMove creatureTarget goblin1 none (constRand 2) =
      ("Not enough combo points! (Need 3, have " ++ toString (comboHero 2).comboPoints ++ ")",
        comboHero 2, goblin1, constRand 2) :=
  ⟨by decide,
   performHeroSpecialMove_insufficient creatureTarget (comboHero 2) goblin1 none (constRand 2)
     (by decide)⟩

/-- C9: with `comboPoints = c >= 3` and the constructor's move list,
`performHeroSpecialMove` picks the move at index `min (c - 3) 3` (a valid index) of
[Triple Strike 1.8, Whirlwind Slash 2.0, Power Attack 2.2, Ultimate Combo 2.5], hands
`calculateDamage (pa * multiplier * (1 + successful_blocks / 10)) targetType` to the
target's `subitDegat`, returns the move's name and resets `comboPoints` to 0 whatever
the target's `subitDegat` did; `c = 3` picks Triple Strike, `c >= 6` Ultimate Combo. -/
theorem performHeroSpecialMove_move {τ : Type} (T : TargetOps τ) (h : Hero) (target : τ)
    (answer : Option Int) (g : RandState) (hc : 3 ≤ h.comboPoints)
    (hm : h.heroSpecialMoves = heroMoveList) :
    let idx : Nat := (min (h.comboPoints - 3) 3).toNat
    let move : String × ℚ := heroMoveList.getD idx ("", 0)
    let damage : ℚ :=
      h.calculateDamage (h.pa * move.2 * (1 + (h.successful_blocks : ℚ) / 10)) (T.getType target)
    heroMoveList =
      [("Triple Strike", 9/5), ("Whirlwind Slash", 2), ("Power Attack", 11/5),
        ("Ultimate Combo", 5/2)] ∧
    heroMoveList[idx]? = some move ∧
    h.performHeroSpecialMove T target answer g =
      (move.1, { h with comboPoints := 0 }, (T.subitDegat target damage answer g).1,
        (T.subitDegat target damage answer g).2) ∧
    (h.comboPoints = 3 → move = ("Triple Strike", 9/5)) ∧
    (6 ≤ h.comboPoints → move = ("Ultimate Combo", 5/2)) := by
  intro idx move damage
  have hidx : idx < 4 := by
    show (min (h.comboPoints - 3) 3).toNat < 4
    omega
  refine ⟨rfl, ?_, ?_, ?_, ?_⟩
  · show heroMoveList[idx]? = some (heroMoveList.getD idx ("", 0))
    have : idx = 0 ∨ idx = 1 ∨ idx = 2 ∨ idx = 3 := by omega
    rcases this with h0 | h0 | h0 | h0 <;> rw [h0] <;> rfl
  · unfold Hero.performHeroSpecialMove Hero.resetCombo
    rw [if_neg (by omega), hm]
    rfl
  · intro h3
    have : idx = 0 := by
      show (min (h.comboPoints - 3) 3).toNat = 0
      omega
    show heroMoveList.getD idx ("", 0) = _
    rw [this]; rfl
  · intro h6
    have : idx = 3 := by
      show (min (h.comboPoints - 3) 3).toNat = 3
      omega
    show heroMoveList.getD idx ("", 0) = _
    rw [this]; rfl

/-- C9, instance: four combo points against the fresh Goblin. -/
theorem performHeroSpecialMove_move_witness :
    ((3 : Int) ≤ (comboHero 4).comboPoints ∧ (comboHero 4).heroSpecialMoves = heroMoveList) ∧
    ((comboHero 4).performHeroSpecialMove creatureTarget goblin1 none (constRand 2)).1 =
      "Whirlwind Slash" ∧
    ((comboHero 4).performHeroSpecialMove creatureTarget goblin1 none (constRand 2)).2.1.comboPoints
      = 0 := by
  have key := performHeroSpecialMove_move creatureTarget (comboHero 4) goblin1 none
    (constRand 2) (by decide) rfl
  simp only at key
  refine ⟨⟨by decide, rfl⟩, ?_, ?_⟩
  · rw [key.2.2.1]; rfl
  · rw [key.2.2.1]

/-! ## The hero receiving damage -/

theorem generateMathProblem_rng (g : RandState) :
    (generateMathProblem g).2 = { g with next := g.next + 3 } := by
  simp only [generateMathProblem, rand]
  split <;> rfl

/-- C10: with `P` the product of `2 - defenseBuff` over the active items,
`Hero::subitDegat` subtracts `0.3 * raw * P` and adds 1 to `successful_blocks` when the hero
is blocking and the answer equals the generated one, and otherwise subtracts `raw * P` and
leaves `successful_blocks` alone; nothing else changes (the blocking flag included). The
damage is always applied: the generator is untouched when not blocking and advanced by
exactly the three draws of `generateMathProblem` when blocking. -/
theorem hero_subitDegat_spec (h : Hero) (degat : ℚ) (answer : Option Int) (g : RandState) :
    h.subitDegat degat answer g =
      (if h.isBlocking = true ∧ answer = some (generateMathProblem g).1.2 then
        { h with
          successful_blocks := h.successful_blocks + 1
          pv := h.pv - 3/10 * degat *
            (h.activeItems.map (fun item => 2 - item.defenseBuff)).prod }
       else
        { h with
          pv := h.pv - degat * (h.activeItems.map (fun item => 2 - item.defenseBuff)).prod },
       if h.isBlocking = true then { g with next := g.next + 3 } else g) := by
  rw [hero_subitDegat_eq, itemDefense_eq, itemDefense_eq, generateMathProblem_rng]
  by_cases hb : h.isBlocking = true
  · by_cases hv : answer = some (generateMathProblem g).1.2
    · simp only [hb, hv, if_true, true_and, and_self]
      congr 3
      ring
    · simp [hb, hv]
  · simp [hb]

/-! ## Outgoing damage with effects and items -/

/-- C11: `Hero::calculateDamage` returns base damage times the type multiplier times the
product of `damageMultiplier` over the hero's status effects times the product of
`attackBuff` over the hero's active items; `Creature::calculateDamage` returns the same
without the item factor. -/
theorem calculateDamage_products (c : Creature) (h : Hero) (baseDamage : ℚ)
    (targetType : MonsterType) :
    h.calculateDamage baseDamage targetType =
      baseDamage * typeMultiplier h.type targetType *
        (h.activeEffects.map (fun e => e.damageMultiplier)).prod *
        (h.activeItems.map (fun item => item.attackBuff)).prod ∧
    c.calculateDamage baseDamage targetType =
      baseDamage * typeMultiplier c.type targetType *
        (c.activeEffects.map (fun e => e.damageMultiplier)).prod := by
  have hc : ∀ c : Creature, c.calculateDamage baseDamage targetType =
      baseDamage * typeMultiplier c.type targetType *
        (c.activeEffects.map (fun e => e.damageMultiplier)).prod := by
    intro c
    simp only [Creature.calculateDamage, foldl_mul_eq_prod]
    ring
  refine ⟨?_, hc c⟩
  simp only [Hero.calculateDamage, foldl_mul_eq_prod, hc]

/-! ## The monster receiving damage -/

/-- C13: `Creature::subitDegat` makes one draw; with roll 0 or 1 the monster is returned
unchanged, with roll 2 or 3 its `pv` drops by raw damage times the product of
`defenseMultiplier` over its status effects and no other field changes. -/
theorem creature_subitDegat_spec (c : Creature) (degat : ℚ) (g : RandState) :
    c.subitDegat degat g =
      (if g.draws g.next % 4 = 0 ∨ g.draws g.next % 4 = 1 then c
       else
        { c with
          pv := c.pv - degat * (c.activeEffects.map (fun e => e.defenseMultiplier)).prod },
       { g with next := g.next + 1 }) ∧
    (g.draws g.next % 4 = 0 ∨ g.draws g.next % 4 = 1 ∨ g.draws g.next % 4 = 2 ∨
      g.draws g.next % 4 = 3) := by
  refine ⟨?_, by omega⟩
  simp only [Creature.subitDegat, rand, foldl_mul_eq_prod]
  by_cases hr : g.draws g.next % 4 > 1
  · rw [if_pos hr, if_neg (by omega)]
  · rw [if_neg hr, if_pos (by omega)]

/-! ## Basic attack -/

/-- C19: with an empty move list `performSpecialMove` returns the no-special-moves text
and changes nothing. Otherwise it makes one draw for the move index `i` (always a valid
index), first attaches to the target the effect fixed by the attacker's type (Fire: Burn
3, 0.9, 1.0; Ice: Frozen 2, 1.0, 0.8; Poison: Poisoned 4, 0.8, 0.9; Undead: Cursed 3, 0.7,
0.7; Normal: none), then calls the target's `subitDegat` with
`calculateDamage (pa * multiplier_i) targetType`, and returns the name of move `i`; the
attacker (its `comboPoints` included) is unchanged. -/
theorem creature_performSpecialMove_spec {τ : Type} (T : TargetOps τ) (c : Creature)
    (target : τ) (answer : Option Int) (g : RandState) :
    (c.specialMoves = [] →
      c.performSpecialMove T target answer g = ("No special moves available!", c, target, g)) ∧
    (c.specialMoves ≠ [] →
      ∃ move, c.specialMoves[g.draws g.next % c.specialMoves.length]? = some move ∧
        c.performSpecialMove T target answer g =
          (move.1, c,
            T.subitDegat (specialMoveEffect T c.type target)
              (c.calculateDamage (c.pa * move.2) (T.getType (specialMoveEffect T c.type target)))
              answer { g with next := g.next + 1 })) ∧
    specialMoveEffect T .FIRE target = T.addStatusEffect target "Burn" 3 (9/10) 1 ∧
    specialMoveEffect T .ICE target = T.addStatusEffect target "Frozen" 2 1 (4/5) ∧
    specialMoveEffect T .POISON target = T.addStatusEffect target "Poisoned" 4 (4/5) (9/10) ∧
    specialMoveEffect T .UNDEAD target = T.addStatusEffect target "Cursed" 3 (7/10) (7/10) ∧
    specialMoveEffect T .NORMAL target = target := by
  refine ⟨?_, ?_, rfl, rfl, rfl, rfl, rfl⟩
  · intro he
    simp [Creature.performSpecialMove, he]
  · intro hne
    have hpos : 0 < c.specialMoves.length := List.length_pos.2 hne
    have hlt : g.draws g.next % c.specialMoves.length < c.specialMoves.length :=
      Nat.mod_lt _ hpos
    refine ⟨c.specialMoves[g.draws g.next % c.specialMoves.length], ?_, ?_⟩
    · exact List.getElem?_eq_getElem hlt
    · have hemp : c.specialMoves.isEmpty = false := by
        cases hs : c.specialMoves with
        | nil => exact absurd hs hne
        | cons _ _ => rfl
      unfold Creature.performSpecialMove
      simp only [hemp, rand, List.getD_eq_getElem?_getD, List.getElem?_eq_getElem hlt,
        Option.getD_some]
      rfl

/-! ## The math challenge -/

/-- C14: for every outcome of the three draws, `generateMathProblem` displays two operands
`a`, `b` in `[1, 10]` joined by `+`, `-` or `×`; the answer is the value of that
expression; for `-` the first operand is at least the second and the answer is `>= 0`;
every answer lies in `[0, 100]`. -/
theorem generateMathProblem_spec (g : RandState) :
    (∃ a b : Int, (1 ≤ a ∧ a ≤ 10) ∧ (1 ≤ b ∧ b ≤ 10) ∧
      (((generateMathProblem g).1.1 = toString a ++ " + " ++ toString b ∧
          (generateMathProblem g).1.2 = a + b) ∨
        ((generateMathProblem g).1.1 = toString a ++ " - " ++ toString b ∧
          (generateMathProblem g).1.2 = a - b ∧ b ≤ a ∧ 0 ≤ (generateMathProblem g).1.2) ∨
        ((generateMathProblem g).1.1 = toString a ++ " × " ++ toString b ∧
          (generateMathProblem g).1.2 = a * b))) ∧
    0 ≤ (generateMathProblem g).1.2 ∧ (generateMathProblem g).1.2 ≤ 100 := by
  have h1 : (1 : Int) ≤ (g.draws g.next : Int) % 10 + 1 ∧ (g.draws g.next : Int) % 10 + 1 ≤ 10 := by
    omega
  have h2 : (1 : Int) ≤ (g.draws (g.next + 1) : Int) % 10 + 1 ∧
      (g.draws (g.next + 1) : Int) % 10 + 1 ≤ 10 := by
    omega
  simp only [generateMathProblem, rand]
  split
  · refine ⟨⟨_, _, h1, h2, Or.inl ⟨rfl, rfl⟩⟩, ?_, ?_⟩ <;> simp only <;> omega
  · by_cases hlt : (g.draws g.next : Int) % 10 + 1 < (g.draws (g.next + 1) : Int) % 10 + 1
    · simp only [hlt, if_true]
      refine ⟨⟨_, _, h2, h1, Or.inr (Or.inl ⟨rfl, rfl, ?_, ?_⟩)⟩, ?_, ?_⟩ <;> omega
    · simp only [hlt, if_false]
      refine ⟨⟨_, _, h1, h2, Or.inr (Or.inl ⟨rfl, rfl, ?_, ?_⟩)⟩, ?_, ?_⟩ <;> omega
  · refine ⟨⟨_, _, h1, h2, Or.inr (Or.inr ⟨rfl, rfl⟩)⟩, ?_, ?_⟩ <;> simp only <;> nlinarith
  · rename_i n0 n1 n2
    exfalso
    have h3 : g.draws (g.next + 1 + 1) % 3 = 0 ∨ g.draws (g.next + 1 + 1) % 3 = 1 ∨
        g.draws (g.next + 1 + 1) % 3 = 2 := by omega
    rcases h3 with h3 | h3 | h3
    · exact n0 h3
    · exact n1 h3
    · exact n2 h3

/-! ## Using and adding items -/

/-- C15: on an in-bounds index whose slot holds `item` with quantity `q > 0`, `useItem`
sets that slot's quantity to `q - 1` and leaves every other slot unchanged; if
`duration = 0` and `healAmount > 0`, `pv` becomes `min (pv + healAmount) pv_max` and the
active list is unchanged; if `duration > 0`, the item (name, duration, heal and buffs as
in the slot) is appended at the end of the active list and `pv` is unchanged. -/
theorem useItem_success (h : Hero) (index : Int) (item : Item) (h0 : 0 ≤ index)
    (hget : h.inventory[index.toNat]? = some item) (hq : 0 < item.quantity) :
    (h.useItem index).inventory.length = h.inventory.length ∧
    (h.useItem index).inventory[index.toNat]? =
      some { item with quantity := item.quantity - 1 } ∧
    (∀ j : Nat, j ≠ index.toNat → (h.useItem index).inventory[j]? = h.inventory[j]?) ∧
    (item.duration = 0 → 0 < item.healAmount →
      (h.useItem index).pv = min (h.pv + item.healAmount) h.pv_max ∧
      (h.useItem index).activeItems = h.activeItems) ∧
    (0 < item.duration →
      (h.useItem index).activeItems = h.activeItems ++ [item] ∧
      (h.useItem index).pv = h.pv) := by
  have hlt : index.toNat < h.inventory.length := by
    rcases List.getElem?_eq_some.1 hget with ⟨hl, -⟩
    exact hl
  have hin : 0 ≤ index ∧ index < (h.inventory.length : Int) := by
    constructor
    · exact h0
    · have := Int.toNat_of_nonneg h0
      omega
  have hnq : ¬ item.quantity ≤ 0 := by omega
  have hrun : h.useItem index =
      { (if item.duration > 0 then
          { (if item.healAmount > 0 ∧ item.duration = 0 then
              { h with pv := min (h.pv + item.healAmount) h.pv_max } else h) with
            activeItems := h.activeItems ++ [item] }
         else
          (if item.healAmount > 0 ∧ item.duration = 0 then
              { h with pv := min (h.pv + item.healAmount) h.pv_max } else h)) with
        inventory := h.inventory.set index.toNat { item with quantity := item.quantity - 1 } } := by
    unfold Hero.useItem
    rw [if_pos hin]
    simp only [hget, if_neg hnq]
    by_cases hd : item.duration > 0
    · by_cases hh : item.healAmount > 0 ∧ item.duration = 0
      · simp [hd, hh]
      · simp [hd, hh]
    · by_cases hh : item.healAmount > 0 ∧ item.duration = 0
      · simp [hd, hh]
      · simp [hd, hh]
  rw [hrun]
  refine ⟨?_, ?_, ?_, ?_, ?_⟩
  · simp
  · simp [List.getElem?_set, hlt]
  · intro j hj
    simp [List.getElem?_set, Ne.symm hj]
  · intro hd hh
    have hnd : ¬ item.duration > 0 := by omega
    simp [hnd, hd, hh]
  · intro hd
    have hnz : ¬ (item.healAmount > 0 ∧ item.duration = 0) := by
      rintro ⟨-, hz⟩; omega
    simp [hd, hnz]

/-- C15, instance: the hero holding the starter items uses the Healing Salve (index 1). -/
theorem useItem_success_witness :
    ((0 : Int) ≤ 1 ∧ starterHero.inventory[(1 : Int).toNat]? = some starterSalve ∧
      0 < starterSalve.quantity) ∧
    (starterHero.useItem 1).inventory[(1 : Int).toNat]? =
      some { starterSalve with quantity := starterSalve.quantity - 1 } ∧
    (starterHero.useItem 1).activeItems = starterHero.activeItems ++ [starterSalve] ∧
    (starterHero.useItem 1).pv = starterHero.pv := by
  have key := useItem_success starterHero 1 starterSalve (by decide) rfl (by decide)
  exact ⟨⟨by decide, rfl, by decide⟩, key.2.1, key.2.2.2.2 (by decide)⟩

theorem addItemLoop_found (item : Item) (pre : List Item) (slot : Item) (post : List Item)
    (hpre : ∀ x ∈ pre, x.name ≠ item.name) (hslot : slot.name = item.name) :
    addItemLoop item (pre ++ slot :: post) =
      pre ++ { slot with quantity := slot.quantity + item.quantity } :: post := by
  induction pre with
  | nil => simp [addItemLoop, hslot]
  | cons x xs ih =>
    have hx : x.name ≠ item.name := hpre x (List.mem_cons_self _ _)
    have hxs : ∀ y ∈ xs, y.name ≠ item.name := fun y hy => hpre y (List.mem_cons_of_mem _ hy)
    rw [List.cons_append]
    unfold addItemLoop
    rw [if_neg hx, ih hxs]
    rfl

theorem addItemLoop_not_found (item : Item) (l : List Item)
    (hl : ∀ x ∈ l, x.name ≠ item.name) : addItemLoop item l = l ++ [item] := by
  induction l with
  | nil => rfl
  | cons x xs ih =>
    have hx : x.name ≠ item.name := hl x (List.mem_cons_self _ _)
    have hxs : ∀ y ∈ xs, y.name ≠ item.name := fun y hy => hl y (List.mem_cons_of_mem _ hy)
    simp only [addItemLoop, if_neg hx, ih hxs, List.cons_append]

theorem addItemLoop_names (item : Item) (l : List Item) :
    (addItemLoop item l).map (fun x => x.name) =
      if item.name ∈ l.map (fun x => x.name) then l.map (fun x => x.name)
      else l.map (fun x => x.name) ++ [item.name] := by
  induction l with
  | nil => simp [addItemLoop]
  | cons x xs ih =>
    by_cases hx : x.name = item.name
    · simp [addItemLoop, hx]
    · have hx' : ¬ item.name = x.name := fun h => hx h.symm
      simp only [addItemLoop, if_neg hx, List.map_cons, ih, List.mem_cons, hx', false_or]
      split <;> simp

/-- C17: if some slot has the item's name, `addItem` adds the item's quantity to the
first such slot and changes nothing else (length and order kept); otherwise it appends
the item as a new last slot. Pairwise distinct slot names stay pairwise distinct. -/
theorem addItem_spec (h : Hero) (item : Item) :
    (∀ (pre : List Item) (slot : Item) (post : List Item),
      h.inventory = pre ++ slot :: post → (∀ x ∈ pre, x.name ≠ item.name) →
      slot.name = item.name →
      h.addItem item =
        { h with
          inventory := pre ++ { slot with quantity := slot.quantity + item.quantity } :: post }) ∧
    ((∀ x ∈ h.inventory, x.name ≠ item.name) →
      h.addItem item = { h with inventory := h.inventory ++ [item] }) ∧
    ((h.inventory.map (fun x => x.name)).Nodup →
      ((h.addItem item).inventory.map (fun x => x.name)).Nodup) := by
  refine ⟨?_, ?_, ?_⟩
  · intro pre slot post hinv hpre hslot
    unfold Hero.addItem
    rw [hinv, addItemLoop_found item pre slot post hpre hslot]
  · intro hl
    unfold Hero.addItem
    rw [addItemLoop_not_found item _ hl]
  · intro hnd
    show ((addItemLoop item h.inventory).map (fun x => x.name)).Nodup
    rw [addItemLoop_names]
    split
    · exact hnd
    · rename_i hnot
      rw [List.nodup_append]
      refine ⟨hnd, List.nodup_singleton _, ?_⟩
      intro a ha hb
      rw [List.mem_singleton] at hb
      exact hnot (hb ▸ ha)

/-! ## Encounter scaling -/

theorem monsterLevel_eq_floor (n : Int) (hn : 0 ≤ n) :
    monsterLevel n = 1 + Int.floor ((n : ℚ) / 3) := by
  unfold monsterLevel
  rw [Int.tdiv_eq_ediv hn (by norm_num)]
  have := Rat.floor_intCast_div_natCast n 3
  simp only [Nat.cast_ofNat] at this
  rw [this]

theorem generateEncounter_catalog (n : Int) (g : RandState) :
    ∃ t ∈ monsterTemplates,
      generateEncounter n g = (Creature.create t (monsterLevel n), { g with next := g.next + 1 }) := by
  have hlt : g.draws g.next % monsterTemplates.length < monsterTemplates.length :=
    Nat.mod_lt _ (by decide)
  refine ⟨monsterTemplates[g.draws g.next % monsterTemplates.length], List.getElem_mem _, ?_⟩
  simp only [generateEncounter, rand, List.getD_eq_getElem?_getD, List.getElem?_eq_getElem hlt,
    Option.getD_some]

/-- C20: for every template and every `monstersDefeated = n >= 0`, the encounter code
builds a monster of level `L = 1 + floor(n / 3) >= 1` with
`pv = pv_max = baseHP * (1 + 0.5 L)`, `pa = baseAttack * (1 + 0.3 L)`, `comboPoints = 0`
and no status effect, the template being a catalog entry; for the Goblin and `n <= 2`
this is `pv = 30` and `pa = 5.2`. -/
theorem encounter_scaling (templ : MonsterTemplate) (n : Int) (g : RandState) (hn : 0 ≤ n) :
    monsterLevel n = 1 + Int.floor ((n : ℚ) / 3) ∧
    1 ≤ monsterLevel n ∧
    (Creature.create templ (monsterLevel n)).niveau = monsterLevel n ∧
    (Creature.create templ (monsterLevel n)).pv =
      templ.baseHP * (1 + 1/2 * (monsterLevel n : ℚ)) ∧
    (Creature.create templ (monsterLevel n)).pv_max =
      templ.baseHP * (1 + 1/2 * (monsterLevel n : ℚ)) ∧
    (Creature.create templ (monsterLevel n)).pa =
      templ.baseAttack * (1 + 3/10 * (monsterLevel n : ℚ)) ∧
    (Creature.create templ (monsterLevel n)).comboPoints = 0 ∧
    (Creature.create templ (monsterLevel n)).activeEffects = [] ∧
    (∃ t ∈ monsterTemplates,
      generateEncounter n g =
        (Creature.create t (monsterLevel n), { g with next := g.next + 1 })) ∧
    monsterTemplates[0]? = some goblinTemplate ∧
    (n ≤ 2 →
      (Creature.create goblinTemplate (monsterLevel n)).pv = 30 ∧
      (Creature.create goblinTemplate (monsterLevel n)).pa = 26/5) := by
  have hdiv : monsterLevel n = 1 + n / 3 := by
    unfold monsterLevel
    rw [Int.tdiv_eq_ediv hn (by norm_num)]
  refine ⟨monsterLevel_eq_floor n hn, ?_, rfl, ?_, ?_, ?_, rfl, rfl,
    generateEncounter_catalog n g, rfl, ?_⟩
  · rw [hdiv]; omega
  · simp only [Creature.create]; ring
  · simp only [Creature.create]; ring
  · simp only [Creature.create]; ring
  · intro h2
    have h1 : monsterLevel n = 1 := by rw [hdiv]; omega
    rw [h1]
    norm_num [Creature.create, goblinTemplate]

/-- C20, instance: the Goblin after two defeated monsters. -/
theorem encounter_scaling_witness :
    (0 : Int) ≤ 2 ∧
    (Creature.create goblinTemplate (monsterLevel 2)).pv = 30 ∧
    (Creature.create goblinTemplate (monsterLevel 2)).pa = 26/5 :=
  ⟨by decide,
   (encounter_scaling goblinTemplate 2 (constRand 0) (by decide)).2.2.2.2.2.2.2.2.2.2 (by decide)⟩

/-! ## The three-attack scenario -/

theorem hero_attaque_bounds {τ : Type} (T : TargetOps τ) (h : Hero) (target : τ)
    (g : RandState) (hh : 0 ≤ h.pa) (ht : typeMultiplier h.type (T.getType target) = 1)
    (he : h.activeEffects = []) (hi : h.activeItems = []) :
    h.pa ≤ (h.attaque T target g).1 ∧ (h.attaque T target g).1 ≤ 19/10 * h.pa := by
  have hr : (0 : ℚ) ≤ ((g.draws g.next % 10 : Nat) : ℚ) := Nat.cast_nonneg _
  have hr9 : ((g.draws g.next % 10 : Nat) : ℚ) ≤ 9 := by
    have : g.draws g.next % 10 ≤ 9 := by omega
    exact_mod_cast this
  simp only [Hero.attaque, rand, Hero.calculateDamage, Creature.calculateDamage, ht, he, hi,
    List.foldl_nil, mul_one]
  constructor <;> nlinarith

theorem hero_attaque_hero {τ : Type} (T : TargetOps τ) (h : Hero) (target : τ)
    (g : RandState) :
    (h.attaque T target g).2.1 = { h with comboPoints := h.comboPoints + 1 } := rfl

/-- C12 (as stated, refuted): the hero built by `Hero::Hero` has attack 13/2 and HP 45,
not 5 and 30, and with attack roll 9 the first basic attack on the level-1 Goblin returns
247/20, above 9.5. -/
theorem fresh_hero_scenario_refuted :
    freshHero.pa = 13/2 ∧ freshHero.pa ≠ 5 ∧ freshHero.pv = 45 ∧ freshHero.pv ≠ 30 ∧
    (threeAttacks freshHero goblin1 (constRand 9)).1.1 = 247/20 ∧
    ¬ ((threeAttacks freshHero goblin1 (constRand 9)).1.1 ≤ 19/2) := by
  have hpa : freshHero.pa = 13/2 := by norm_num [freshHero, Hero.create, Creature.create]
  have hpv : freshHero.pv = 45 := by norm_num [freshHero, Hero.create, Creature.create]
  have hd : (threeAttacks freshHero goblin1 (constRand 9)).1.1 = 247/20 := by
    simp only [threeAttacks, Hero.attaque, rand, constRand, creatureTarget,
      Hero.calculateDamage, Creature.calculateDamage]
    norm_num [freshHero, Hero.create, Creature.create, typeMultiplier_normal]
  refine ⟨hpa, ?_, hpv, ?_, hd, ?_⟩
  · rw [hpa]; norm_num
  · rw [hpv]; norm_num
  · rw [hd]; norm_num

/-- C12 (amended): a freshly constructed hero has attack 13/2 and HP 45 (the constructor
scales the values 5 and 30 by the level-1 factors 1.3 and 1.5) and the level-1 Goblin has
HP 30 and attack 26/5; for every sequence of draws, each of three consecutive hero basic
attacks on that Goblin returns a damage in `[13/2, 247/20]`, and afterwards the hero's
`comboPoints` is 3. -/
theorem fresh_hero_scenario (name : String) (g : RandState) :
    (Hero.create name).pa = 13/2 ∧ (Hero.create name).pv = 45 ∧
    (Hero.create name).pv_max = 45 ∧
    goblin1.pv = 30 ∧ goblin1.pa = 26/5 ∧
    (13/2 ≤ (threeAttacks (Hero.create name) goblin1 g).1.1 ∧
      (threeAttacks (Hero.create name) goblin1 g).1.1 ≤ 247/20) ∧
    (13/2 ≤ (threeAttacks (Hero.create name) goblin1 g).1.2.1 ∧
      (threeAttacks (Hero.create name) goblin1 g).1.2.1 ≤ 247/20) ∧
    (13/2 ≤ (threeAttacks (Hero.create name) goblin1 g).1.2.2 ∧
      (threeAttacks (Hero.create name) goblin1 g).1.2.2 ≤ 247/20) ∧
    (threeAttacks (Hero.create name) goblin1 g).2.1.comboPoints = 3 := by
  have hpa : (Hero.create name).pa = 13/2 := by norm_num [Hero.create, Creature.create]
  have hb : ∀ (h : Hero) (g : RandState), h.pa = 13/2 → h.type = .NORMAL →
      h.activeEffects = [] → h.activeItems = [] →
      13/2 ≤ (h.attaque creatureTarget goblin1 g).1 ∧
        (h.attaque creatureTarget goblin1 g).1 ≤ 247/20 := by
    intro h g hp ht he hi
    have := hero_attaque_bounds creatureTarget h goblin1 g (by rw [hp]; norm_num)
      (by rw [ht]; exact typeMultiplier_normal _) he hi
    rw [hp] at this
    constructor
    · exact this.1
    · have h2 := this.2
      norm_num at h2 ⊢
      exact h2
  refine ⟨hpa, ?_, ?_, ?_, ?_, ?_, ?_, ?_, ?_⟩
  · norm_num [Hero.create, Creature.create]
  · norm_num [Hero.create, Creature.create]
  · norm_num [goblin1, Creature.create]
  · norm_num [goblin1, Creature.create]
  · exact hb _ _ hpa rfl rfl rfl
  · exact hb _ _ hpa rfl rfl rfl
  · exact hb _ _ hpa rfl rfl rfl
  · simp [threeAttacks, hero_attaque_hero, Hero.create, Creature.create]

/-! ## Ticking the active items -/

theorem expiredIndexes_cons (x : Item) (xs : List Item) :
    (List.range (x :: xs).length).filter (fun i =>
        match (x :: xs)[i]? with
        | some item => decide (item.duration ≤ 0)
        | none => false) =
      (if x.duration ≤ 0 then [0] else []) ++
        ((List.range xs.length).filter (fun i =>
          match xs[i]? with
          | some item => decide (item.duration ≤ 0)
          | none => false)).map Nat.succ := by
  rw [List.length_cons, List.range_succ_eq_map, List.filter_cons, List.filter_map]
  have hcomp : ((fun i =>
        match (x :: xs)[i]? with
        | some item => decide (item.duration ≤ 0)
        | none => false) ∘ Nat.succ) =
      (fun i =>
        match xs[i]? with
        | some item => decide (item.duration ≤ 0)
        | none => false) := by
    funext i
    simp [Function.comp]
  rw [hcomp]
  by_cases hx : x.duration ≤ 0
  · simp [hx]
  · simp [hx]

theorem foldl_eraseIdx_succ (js : List Nat) (x : Item) (xs : List Item) :
    (js.map Nat.succ).foldl (fun l i => l.eraseIdx i) (x :: xs) =
      x :: js.foldl (fun l i => l.eraseIdx i) xs := by
  induction js generalizing xs with
  | nil => rfl
  | cons j js ih =>
    simp only [List.map_cons, List.foldl_cons, Nat.succ_eq_add_one, List.eraseIdx_cons_succ]
    exact ih _

/-- Erasing the expired indexes, last one first, keeps exactly the items whose duration
is positive, in their order. -/
theorem eraseExpired_eq_filter (items : List Item) :
    eraseExpired items = items.filter (fun item => decide (0 < item.duration)) := by
  induction items with
  | nil => rfl
  | cons x xs ih =>
    unfold eraseExpired at ih ⊢
    simp only at ih ⊢
    rw [expiredIndexes_cons, List.reverse_append, List.foldl_append, ← List.map_reverse,
      foldl_eraseIdx_succ, ih]
    by_cases hx : x.duration ≤ 0
    · have hx' : ¬ 0 < x.duration := by omega
      simp [hx, hx']
    · have hx' : 0 < x.duration := by omega
      simp [hx, hx']

theorem updateActiveItems_activeItems (h : Hero) :
    h.updateActiveItems.activeItems =
      (h.activeItems.map (fun item => { item with duration := item.duration - 1 })).filter
        (fun item => decide (0 < item.duration)) := by
  show eraseExpired _ = _
  rw [eraseExpired_eq_filter]

theorem tick_after_ticks (d : Int) (l : List Item) :
    ((((l.map (fun item : Item => { item with duration := item.duration - d })).filter
        (fun item => decide (0 < item.duration))).map
          (fun item : Item => { item with duration := item.duration - 1 })).filter
            (fun item => decide (0 < item.duration))) =
      (l.map (fun item : Item => { item with duration := item.duration - (d + 1) })).filter
        (fun item => decide (0 < item.duration)) := by
  induction l with
  | nil => rfl
  | cons x xs ih =>
    have he : ({ x with duration := x.duration - d - 1 } : Item) =
        { x with duration := x.duration - (d + 1) } := by
      congr 1
      ring
    by_cases h1 : 0 < x.duration - d
    · by_cases h2 : 0 < x.duration - (d + 1)
      · have h3 : 0 < x.duration - d - 1 := by omega
        simp only [List.map_cons, List.filter_cons, h1, h2, h3, decide_True, if_true, he, ih]
      · have h3 : ¬ 0 < x.duration - d - 1 := by omega
        simp only [List.map_cons, List.filter_cons, h1, h2, h3, decide_True, decide_False,
          if_true, Bool.false_eq_true, if_false, ih]
    · have h2 : ¬ 0 < x.duration - (d + 1) := by omega
      simp only [List.map_cons, List.filter_cons, h1, h2, decide_False, Bool.false_eq_true,
        if_false, ih]

theorem updateActiveItems_iterate (k : Nat) (h : Hero) :
    (Hero.updateActiveItems^[k + 1] h).activeItems =
      (h.activeItems.map
        (fun item : Item => { item with duration := item.duration - ((k : Int) + 1) })).filter
          (fun item => decide (0 < item.duration)) := by
  induction k with
  | zero =>
    rw [Function.iterate_one, updateActiveItems_activeItems]
    simp only [Nat.cast_zero, zero_add]
  | succ n ih =>
    rw [Function.iterate_succ_apply', updateActiveItems_activeItems, ih, tick_after_ticks]
    simp only [Nat.cast_succ]

/-- C16: `updateActiveItems` leaves the old active list with every duration decremented
by 1 and the instances of duration `<= 0` removed, survivors in their order; `pv` is the
result of applying `pv := min (pv + healAmount) pv_max`, in list order, for every instance
with `healAmount > 0`, the expiring ones included. Hence after `k + 1` ticks the list is
the old one with durations lowered by `k + 1`, the non-positive ones removed: an instance
of duration `d >= 1` is in the list after `k` ticks exactly when `k < d`, so it heals on
ticks 1 to `d` and is removed on tick `d`. -/
theorem updateActiveItems_spec (h : Hero) :
    h.updateActiveItems.activeItems =
      (h.activeItems.map (fun item => { item with duration := item.duration - 1 })).filter
        (fun item => decide (0 < item.duration)) ∧
    h.updateActiveItems.pv =
      h.activeItems.foldl
        (fun pv item => if item.healAmount > 0 then min (pv + item.healAmount) h.pv_max else pv)
        h.pv ∧
    (∀ k : Nat, (Hero.updateActiveItems^[k + 1] h).activeItems =
      (h.activeItems.map
        (fun item : Item => { item with duration := item.duration - ((k : Int) + 1) })).filter
          (fun item => decide (0 < item.duration))) ∧
    (∀ (item : Item) (k : Nat), item ∈ h.activeItems → 1 ≤ item.duration →
      ({ item with duration := item.duration - (k : Int) } ∈
          (Hero.updateActiveItems^[k] h).activeItems ↔ (k : Int) < item.duration)) := by
  refine ⟨updateActiveItems_activeItems h, rfl, fun k => updateActiveItems_iterate k h, ?_⟩
  intro item k hmem hd
  cases k with
  | zero =>
    simp only [Function.iterate_zero, id_eq, Nat.cast_zero, sub_zero]
    constructor
    · intro _; omega
    · intro _; exact hmem
  | succ n =>
    rw [updateActiveItems_iterate, List.mem_filter, List.mem_map]
    constructor
    · rintro ⟨-, hpos⟩
      have : 0 < item.duration - ((n + 1 : Nat) : Int) := by simpa using hpos
      omega
    · intro hlt
      refine ⟨⟨item, hmem, ?_⟩, ?_⟩
      · simp only [Nat.cast_succ]
      · simp only [decide_eq_true_eq]
        omega

/-! ## Instances of the item and special-move results -/

/-- C16, instance: the Healing Salve (4 turns) ticking on the hero is still in the list
after 3 ticks, with 1 turn left. -/
theorem updateActiveItems_spec_witness :
    (starterSalve ∈ salvedHero.activeItems ∧ 1 ≤ starterSalve.duration) ∧
    ({ starterSalve with duration := starterSalve.duration - ((3 : Nat) : Int) } ∈
        (Hero.updateActiveItems^[3] salvedHero).activeItems ↔
      ((3 : Nat) : Int) < starterSalve.duration) :=
  ⟨⟨List.mem_singleton.2 rfl, by decide⟩,
   (updateActiveItems_spec salvedHero).2.2.2 starterSalve 3 (List.mem_singleton.2 rfl)
     (by decide)⟩

/-- C17, instance: one more Health Potion for the hero holding the starter items goes to
the first slot; a Health Potion for the fresh hero (empty inventory) becomes a new slot. -/
theorem addItem_spec_witness :
    (starterHero.inventory = [] ++ starterPotion :: [starterSalve] ∧
      (∀ x ∈ ([] : List Item), x.name ≠ starterPotion.name) ∧
      starterPotion.name = starterPotion.name) ∧
    starterHero.addItem starterPotion =
      { starterHero with
        inventory :=
          [] ++ { starterPotion with quantity := starterPotion.quantity + starterPotion.quantity } ::
            [starterSalve] } ∧
    (∀ x ∈ freshHero.inventory, x.name ≠ starterPotion.name) ∧
    freshHero.addItem starterPotion =
      { freshHero with inventory := freshHero.inventory ++ [starterPotion] } :=
  ⟨⟨rfl, fun _ hx => absurd hx (List.not_mem_nil _), rfl⟩,
   (addItem_spec starterHero starterPotion).1 [] starterPotion [starterSalve] rfl
     (fun _ hx => absurd hx (List.not_mem_nil _)) rfl,
   fun _ hx => absurd hx (List.not_mem_nil _),
   (addItem_spec freshHero starterPotion).2.1 (fun _ hx => absurd hx (List.not_mem_nil _))⟩

/-- C19, instance: the fresh Goblin (two moves) against the fresh hero, and the fresh
hero (no monster moves) as attacker. -/
theorem creature_performSpecialMove_spec_witness :
    (goblin1.specialMoves ≠ [] ∧ freshHero.specialMoves = []) ∧
    (∃ move, goblin1.specialMoves[(constRand 1).draws (constRand 1).next %
          goblin1.specialMoves.length]? = some move ∧
        goblin1.performSpecialMove heroTarget freshHero none (constRand 1) =
          (move.1, goblin1,
            heroTarget.subitDegat (specialMoveEffect heroTarget goblin1.type freshHero)
              (goblin1.calculateDamage (goblin1.pa * move.2)
                (heroTarget.getType (specialMoveEffect heroTarget goblin1.type freshHero)))
              none { constRand 1 with next := (constRand 1).next + 1 })) ∧
    freshHero.toCreature.performSpecialMove creatureTarget goblin1 none (constRand 1) =
      ("No special moves available!", freshHero.toCreature, goblin1, constRand 1) :=
  ⟨⟨List.cons_ne_nil _ _, rfl⟩,
   (creature_performSpecialMove_spec heroTarget goblin1 freshHero none (constRand 1)).2.1
     (List.cons_ne_nil _ _),
   (creature_performSpecialMove_spec creatureTarget freshHero.toCreature goblin1 none
     (constRand 1)).1 rfl⟩

/-! ## No stacking of status effects -/

theorem effectInsert_filter_name {m : List StatusEffect} (hwf : EffectMapWF m)
    (e : StatusEffect) :
    (effectInsert e m).filter (fun x => decide (x.name = e.name)) = [e] := by
  unfold EffectMapWF at hwf
  induction m with
  | nil => simp [effectInsert]
  | cons y ys ih =>
    have hwf' := List.pairwise_cons.1 hwf
    unfold effectInsert
    by_cases h1 : e.name < y.name
    · rw [if_pos h1]
      have hrest : (y :: ys).filter (fun x => decide (x.name = e.name)) = [] := by
        rw [List.filter_eq_nil_iff]
        intro z hz
        have hlt : e.name < z.name := by
          rcases List.mem_cons.1 hz with rfl | hz'
          · exact h1
          · exact lt_trans h1 (hwf'.1 z hz')
        simpa using (ne_of_lt hlt).symm
      rw [List.filter_cons, hrest]
      simp
    · rw [if_neg h1]
      by_cases h2 : e.name = y.name
      · rw [if_pos h2]
        have hrest : ys.filter (fun x => decide (x.name = e.name)) = [] := by
          rw [List.filter_eq_nil_iff]
          intro z hz
          have hlt : e.name < z.name := by rw [h2]; exact hwf'.1 z hz
          simpa using (ne_of_lt hlt).symm
        rw [List.filter_cons, hrest]
        simp
      · rw [if_neg h2]
        have h3 : ¬ y.name = e.name := fun h => h2 h.symm
        rw [List.filter_cons, ih hwf'.2]
        simp [h3]

theorem effectInsert_idem (e : StatusEffect) (m : List StatusEffect) :
    effectInsert e (effectInsert e m) = effectInsert e m := by
  induction m with
  | nil => simp [effectInsert]
  | cons y ys ih =>
    by_cases h1 : e.name < y.name
    · simp [effectInsert, h1]
    · by_cases h2 : e.name = y.name
      · simp [effectInsert, h1, h2]
      · simp [effectInsert, h1, h2, ih]

/-- C21: on a well-formed effect map, `addStatusEffect name d dm df` leaves exactly one
effect with that name, carrying `d`, `dm`, `df` whatever was stored under the name before;
an effect with another name is in the map afterwards exactly when it was before; the map
stays well-formed and no other field changes; applying the same effect twice gives the
same result as applying it once. The hero inherits the same method. -/
theorem addStatusEffect_no_stacking (c : Creature) (h : Hero) (name : String) (d : Int)
    (dm df : ℚ) (hwf : EffectMapWF c.activeEffects) :
    (c.addStatusEffect name d dm df).activeEffects.filter (fun x => decide (x.name = name)) =
      [⟨name, d, dm, df⟩] ∧
    effectFind name (c.addStatusEffect name d dm df).activeEffects = some ⟨name, d, dm, df⟩ ∧
    (∀ e : StatusEffect, e.name ≠ name →
      (e ∈ (c.addStatusEffect name d dm df).activeEffects ↔ e ∈ c.activeEffects)) ∧
    EffectMapWF (c.addStatusEffect name d dm df).activeEffects ∧
    c.addStatusEffect name d dm df =
      { c with activeEffects := (c.addStatusEffect name d dm df).activeEffects } ∧
    (c.addStatusEffect name d dm df).addStatusEffect name d dm df =
      c.addStatusEffect name d dm df ∧
    (heroTarget.addStatusEffect h name d dm df).toCreature =
      h.toCreature.addStatusEffect name d dm df := by
  have hwf0 : EffectMapWF (c.addStatusEffect name d dm df).activeEffects :=
    effectInsert_wf hwf _
  refine ⟨effectInsert_filter_name hwf ⟨name, d, dm, df⟩, ?_, ?_, hwf0, rfl, ?_, rfl⟩
  · rw [effectFind_eq_some hwf0]
    exact ⟨(effectInsert_mem hwf _ _).2 (Or.inl rfl), rfl⟩
  · intro e hne
    show e ∈ effectInsert ⟨name, d, dm, df⟩ c.activeEffects ↔ _
    rw [effectInsert_mem hwf]
    constructor
    · rintro (rfl | ⟨hm, -⟩)
      · exact absurd rfl hne
      · exact hm
    · intro hm
      exact Or.inr ⟨hm, hne⟩
  · simp only [Creature.addStatusEffect, effectInsert_idem]

/-- C21, instance: Burn (3 turns) applied to a Goblin already carrying Burn with 1 turn
left. -/
theorem addStatusEffect_no_stacking_witness :
    EffectMapWF burnedGoblin.activeEffects ∧
    (burnedGoblin.addStatusEffect "Burn" 3 (9/10) 1).activeEffects.filter
        (fun x => decide (x.name = "Burn")) = [⟨"Burn", 3, 9/10, 1⟩] ∧
    (burnedGoblin.addStatusEffect "Burn" 3 (9/10) 1).addStatusEffect "Burn" 3 (9/10) 1 =
      burnedGoblin.addStatusEffect "Burn" 3 (9/10) 1 :=
  ⟨List.pairwise_singleton _ _,
   (addStatusEffect_no_stacking burnedGoblin freshHero "Burn" 3 (9/10) 1
     (List.pairwise_singleton _ _)).1,
   (addStatusEffect_no_stacking burnedGoblin freshHero "Burn" 3 (9/10) 1
     (List.pairwise_singleton _ _)).2.2.2.2.2.1⟩

/-! ## Status effects on the hero's defense -/

theorem frozenHero_effects : frozenHero.activeEffects = [⟨"Frozen", 2, 1, 4/5⟩] := by
  simp [frozenHero, Creature.performSpecialMove, frostGiant1, Creature.create, rand, constRand,
    heroTarget, specialMoveEffect, hero_subitDegat_eq, freshHero, Hero.create, effectInsert]

theorem frozenHero_plain : frozenHero.isBlocking = false ∧ frozenHero.activeItems = [] := by
  simp [frozenHero, Creature.performSpecialMove, frostGiant1, Creature.create, rand, constRand,
    heroTarget, specialMoveEffect, hero_subitDegat_eq, freshHero, Hero.create]

/-- C22 (code evaluated at the failing input): `Hero::subitDegat` never reads the hero's
status effects, so for every hero the HP after a hit is the same with and without the
Frozen effect attached by an Ice monster's special move. In particular the fresh hero hit
by the Frost Giant's special move carries Frozen (2 turns, defense multiplier 0.8), is not
blocking, has no active item, and loses exactly 10 HP from `subitDegat(10)`, the same 10
as the same hero without the effect: the loss is not strictly greater. -/
theorem frozen_hero_same_loss :
    (∀ (h : Hero) (d : ℚ) (answer : Option Int) (g : RandState),
      ((specialMoveEffect heroTarget .ICE h).subitDegat d answer g).1.pv =
        (h.subitDegat d answer g).1.pv) ∧
    effectFind "Frozen" frozenHero.activeEffects = some ⟨"Frozen", 2, 1, 4/5⟩ ∧
    frozenHero.isBlocking = false ∧ frozenHero.activeItems = [] ∧
    effectFind "Frozen" thawedHero.activeEffects = none ∧
    frozenHero.pv - (frozenHero.subitDegat 10 none (constRand 0)).1.pv = 10 ∧
    thawedHero.pv - (thawedHero.subitDegat 10 none (constRand 0)).1.pv = 10 ∧
    ¬ (frozenHero.pv - (frozenHero.subitDegat 10 none (constRand 0)).1.pv >
        thawedHero.pv - (thawedHero.subitDegat 10 none (constRand 0)).1.pv) := by
  have hf : frozenHero.pv - (frozenHero.subitDegat 10 none (constRand 0)).1.pv = 10 := by
    rw [hero_subitDegat_pv, frozenHero_plain.1, frozenHero_plain.2]
    simp [itemDefense]
  have ht : thawedHero.pv - (thawedHero.subitDegat 10 none (constRand 0)).1.pv = 10 := by
    rw [hero_subitDegat_pv]
    have h1 : thawedHero.isBlocking = false := frozenHero_plain.1
    have h2 : thawedHero.activeItems = [] := frozenHero_plain.2
    rw [h1, h2]
    simp [itemDefense]
  refine ⟨?_, ?_, frozenHero_plain.1, frozenHero_plain.2, rfl, hf, ht, ?_⟩
  · intro h d answer g
    rw [hero_subitDegat_pv, hero_subitDegat_pv]
    rfl
  · rw [frozenHero_effects]
    rfl
  · rw [hf, ht]
    norm_num

/-! ## The Healing Salve and outgoing damage -/

theorem prod_eq_zero_of_attackBuff (items : List Item)
    (hs : ∃ item ∈ items, item.attackBuff = 0) :
    (items.map (fun item => item.attackBuff)).prod = 0 := by
  rcases hs with ⟨item, hi, h0⟩
  apply List.prod_eq_zero
  rw [← h0]
  exact List.mem_map.2 ⟨item, hi, rfl⟩

theorem hero_calculateDamage_zero (h : Hero) (hs : ∃ item ∈ h.activeItems, item.attackBuff = 0)
    (baseDamage : ℚ) (targetType : MonsterType) : h.calculateDamage baseDamage targetType = 0 := by
  simp only [Hero.calculateDamage, foldl_mul_eq_prod, prod_eq_zero_of_attackBuff _ hs, mul_zero]

theorem creature_subitDegat_zero (c : Creature) (g : RandState) :
    (c.subitDegat 0 g).1 = c := by
  simp only [Creature.subitDegat, rand, foldl_mul_eq_prod, zero_mul, sub_zero]
  split <;> rfl

/-- C23: the catalog Healing Salve and the starter Healing Salve carry `attackBuff = 0`
and a positive duration, so using one puts it in the active list; while an item with
`attackBuff = 0` is in the active list, `Hero::calculateDamage` returns 0 for every base
damage and target type, every hero basic attack returns 0, the hero's special move hands 0
to the target's `subitDegat`, and a monster receiving 0 is left unchanged. -/
theorem salve_zero_damage (h : Hero) (hs : ∃ item ∈ h.activeItems, item.attackBuff = 0) :
    (∀ (baseDamage : ℚ) (targetType : MonsterType), h.calculateDamage baseDamage targetType = 0) ∧
    (∀ (monster : Creature) (g : RandState), (h.attaque creatureTarget monster g).1 = 0) ∧
    (∀ (monster : Creature) (answer : Option Int) (g : RandState), 3 ≤ h.comboPoints →
      (h.performHeroSpecialMove creatureTarget monster answer g).2.2.1 =
        (monster.subitDegat 0 g).1) ∧
    (∀ (monster : Creature) (g : RandState), (monster.subitDegat 0 g).1 = monster) ∧
    (∃ salve, itemTemplates[1]? = some salve ∧ salve.name = "Healing Salve" ∧
      salve.attackBuff = 0 ∧ 0 < salve.duration) ∧
    (starterSalve.name = "Healing Salve" ∧ starterSalve.attackBuff = 0 ∧
      0 < starterSalve.duration) := by
  refine ⟨hero_calculateDamage_zero h hs, ?_, ?_, creature_subitDegat_zero, ?_, ?_⟩
  · intro monster g
    exact hero_calculateDamage_zero h hs _ _
  · intro monster answer g hc
    unfold Hero.performHeroSpecialMove
    rw [if_neg (by omega)]
    simp only [hero_calculateDamage_zero h hs, creatureTarget]
  · exact ⟨_, rfl, rfl, rfl, by decide⟩
  · exact ⟨rfl, rfl, by decide⟩

/-- C23, instance: the hero with a starter Healing Salve ticking. -/
theorem salve_zero_damage_witness :
    (∃ item ∈ salvedHero.activeItems, item.attackBuff = 0) ∧
    (∀ (baseDamage : ℚ) (targetType : MonsterType),
      salvedHero.calculateDamage baseDamage targetType = 0) ∧
    (∀ (monster : Creature) (g : RandState),
      (salvedHero.attaque creatureTarget monster g).1 = 0) :=
  ⟨⟨starterSalve, List.mem_singleton.2 rfl, rfl⟩,
   (salve_zero_damage salvedHero ⟨starterSalve, List.mem_singleton.2 rfl, rfl⟩).1,
   (salve_zero_damage salvedHero ⟨starterSalve, List.mem_singleton.2 rfl, rfl⟩).2.1⟩

/-! ## The item sub-menu -/

/-- C24 (code evaluated at the failing input): with the inventory
[Health Potion x0, Healing Salve x8] the displayed list has the single entry
"Healing Salve: ... (x8)", so item choice 1 is accepted by the sub-menu; the call
`useItem(0)` then addresses the Health Potion slot, whose quantity is 0, and does nothing:
the Healing Salve shown at position 1 keeps its 8 units and no salve effect starts. -/
theorem item_menu_wrong_slot :
    potionlessHero.getInventoryList = [starterSalve.getDescription] ∧
    starterSalve.getDescription = "Healing Salve: Heals 6 HP per turn for 4 turns (x8)" ∧
    (0 < useFirstItem.itemChoice ∧
      useFirstItem.itemChoice ≤ (potionlessHero.getInventoryList.length : Int)) ∧
    potionlessHero.useItem (useFirstItem.itemChoice - 1) = potionlessHero ∧
    (playerAction potionlessTurn useFirstItem).player.inventory =
      [{ starterPotion with quantity := 0 }, starterSalve] ∧
    (playerAction potionlessTurn useFirstItem).player.activeItems = [] ∧
    (playerAction potionlessTurn useFirstItem).player.pv = potionlessHero.pv := by
  have hlist : potionlessHero.getInventoryList = [starterSalve.getDescription] := by
    simp [Hero.getInventoryList, potionlessHero, starterPotion, starterSalve]
  have huse : potionlessHero.useItem (useFirstItem.itemChoice - 1) = potionlessHero := by
    simp [Hero.useItem, potionlessHero, useFirstItem, starterPotion]
  have hact : (playerAction potionlessTurn useFirstItem).player =
      potionlessHero.setBlocking false := by
    have h1 : useFirstItem.choice = 4 := rfl
    have h2 : potionlessTurn.player = potionlessHero := rfl
    simp only [playerAction, h1, h2, hlist, huse]
    simp
  refine ⟨hlist, by decide, ?_, huse, ?_, ?_, ?_⟩
  · rw [hlist]
    exact ⟨by decide, by decide⟩
  · rw [hact]; rfl
  · rw [hact]; rfl
  · rw [hact]; rfl

/-! ## The monster's effect map during a battle -/

theorem creature_subitDegat_effects (c : Creature) (degat : ℚ) (g : RandState) :
    (c.subitDegat degat g).1.activeEffects = c.activeEffects := by
  simp only [Creature.subitDegat, rand]
  split <;> rfl

theorem heroSpecial_monster_effects (h : Hero) (monster : Creature) (answer : Option Int)
    (g : RandState) :
    (h.performHeroSpecialMove creatureTarget monster answer g).2.2.1.activeEffects =
      monster.activeEffects := by
  unfold Hero.performHeroSpecialMove
  split
  · rfl
  · exact creature_subitDegat_effects _ _ _

theorem creature_performSpecialMove_self {τ : Type} (T : TargetOps τ) (c : Creature)
    (target : τ) (answer : Option Int) (g : RandState) :
    (c.performSpecialMove T target answer g).2.1 = c := by
  unfold Creature.performSpecialMove
  split <;> rfl

theorem playerAction_monster_effects (s : Battle) (inp : TurnInput) :
    (playerAction s inp).monster.activeEffects = s.monster.activeEffects := by
  unfold playerAction
  split
  · exact creature_subitDegat_effects _ _ _
  · split
    · exact heroSpecial_monster_effects _ _ _ _
    · split
      · rfl
      · split
        · rfl
        · split
          · simp only [rand]
            split <;> rfl
          · rfl

theorem monsterAction_monster_effects (s : Battle) (inp : TurnInput) :
    (monsterAction s inp).monster.activeEffects = s.monster.activeEffects := by
  unfold monsterAction
  simp only [rand]
  split
  · show (s.monster.performSpecialMove heroTarget s.player inp.answer _).2.1.activeEffects = _
    rw [creature_performSpecialMove_self]
  · rfl

theorem loopBody_monster_effects (s : Battle) (inp : TurnInput)
    (h : s.monster.activeEffects = []) : (loopBody s inp).monster.activeEffects = [] := by
  unfold loopBody
  by_cases ht : s.playerTurn = true
  · simp only [ht, if_true]
    rw [playerAction_monster_effects, h]
  · simp only [ht, if_false]
    show updateEffects (monsterAction s inp).monster.activeEffects = []
    rw [monsterAction_monster_effects, h]
    rfl

theorem runBattle_monster_effects (s : Battle) (inputs : List TurnInput)
    (h : s.monster.activeEffects = []) : (runBattle s inputs).monster.activeEffects = [] := by
  unfold runBattle
  induction inputs generalizing s with
  | nil => exact h
  | cons inp rest ih =>
    rw [List.foldl_cons]
    apply ih
    split
    · exact loopBody_monster_effects s inp h
    · exact h

theorem startBattle_monster_effects (player : Hero) (n : Int) (g : RandState) :
    (startBattle player n g).monster.activeEffects = [] := rfl

/-- C25: in every state reached by the battle loop from a freshly generated monster, for
any hero, any number of defeated monsters, any draw sequence and any sequence of menu
choices, item choices and block answers, the monster's status-effect map is empty; so both
status factors are 1: the monster's `calculateDamage` is base damage times the type
multiplier, and a hit lowers the monster's `pv` by exactly the raw damage. -/
theorem monster_effects_always_empty (player : Hero) (n : Int) (g : RandState)
    (inputs : List TurnInput) :
    (runBattle (startBattle player n g) inputs).monster.activeEffects = [] ∧
    ((runBattle (startBattle player n g) inputs).monster.activeEffects.map
      (fun e => e.damageMultiplier)).prod = 1 ∧
    ((runBattle (startBattle player n g) inputs).monster.activeEffects.map
      (fun e => e.defenseMultiplier)).prod = 1 ∧
    (∀ (baseDamage : ℚ) (targetType : MonsterType),
      (runBattle (startBattle player n g) inputs).monster.calculateDamage baseDamage targetType =
        baseDamage *
          typeMultiplier (runBattle (startBattle player n g) inputs).monster.type targetType) ∧
    (∀ (degat : ℚ) (r : RandState),
      ((runBattle (startBattle player n g) inputs).monster.subitDegat degat r).1.pv =
        if r.draws r.next % 4 > 1 then
          (runBattle (startBattle player n g) inputs).monster.pv - degat
        else (runBattle (startBattle player n g) inputs).monster.pv) := by
  have hemp : (runBattle (startBattle player n g) inputs).monster.activeEffects = [] :=
    runBattle_monster_effects _ inputs (startBattle_monster_effects player n g)
  refine ⟨hemp, ?_, ?_, ?_, ?_⟩
  · rw [hemp]; rfl
  · rw [hemp]; rfl
  · intro baseDamage targetType
    simp only [Creature.calculateDamage, hemp, List.foldl_nil]
  · intro degat r
    rw [creature_subitDegat_pv, hemp]
    simp

/-! ## Experience in binary32 -/

end Abattler
